import Mathlib

/-!
Shallow embedding of the `power_opt` dispatch-model pipeline:

* the data model (`power_opt/models/*.py`);
* the Pyomo model builder (`power_opt/solver/model_builder.py` together with
  the flag modules `power_opt/solver/flags/{transporte,deficit,emissao,rampa}.py`);
* the iterative loss engine
  (`power_opt/solver/pyomo_solver.py::aplicar_perdas_iterativamente` and
  `power_opt/solver/flags/perdas.py`);
* the N-1 contingency runner (`power_opt/experiments/experimentos.py`).

Conventions of the embedding:

* all numeric quantities are rationals (`ℚ`); the float literals of the source
  (`0.5`, `1e-16`, …) are read as the rationals they denote;
* a Python dict comprehension `{key(x): val(x) for x in l}` is modelled as a
  total function: the *last* occurrence of a key wins, and absent keys take the
  Pyomo `Param` default (`0` whenever the source declares `default=0.0`);
* the external LP solver is an oracle `FullSystem → Assign` handed in as a
  parameter: it returns values for every variable family of the model;
* a Pyomo `ConcreteModel` is represented by the list of its declared decision
  variables (`variaveis`) and the list of its constraints (`restricoes`),
  each constraint carrying its index; the meaning of a constraint is the
  predicate `holdsC`, translated rule by rule from the source.  Component
  replacement (`safe_del` followed by a re-declaration, and Pyomo's implicit
  replacement of a same-named component) is modelled as the *final* component
  of that name; constraints refer to a variable family by its name and index,
  not by Python object identity.  Paths on which the Python code would raise
  (e.g. an `AttributeError` on `model.D` when the `deficit` flag is set
  without `usar_deficit`) are outside every theorem's hypotheses; the
  loader-produced configurations the theorems assume
  (`usar_deficit = deficit`, and no Deficit entities when the flag is off)
  keep the embedding on the non-raising paths.
-/

namespace PowerOpt

/-- A generator (`models/base_generator.py` and its subclasses).  Fictitious
generators are recognised throughout the solver layer by the id prefix `"GF"`,
exactly as the source does (`g.id.startswith("GF")`). -/
structure Gen where
  id : String
  bus : String
  gmin : ℚ := 0
  gmax : ℚ := 0
  cost : ℚ := 0
  emission : ℚ := 0
  ramp : ℚ := 0
deriving DecidableEq

/-- A bus owning its generators (`models/bus.py`). -/
structure Bus where
  id : String
  generators : List Gen := []
deriving DecidableEq

/-- A transmission line (`models/line.py`). -/
structure Line where
  id : String
  from_bus : String
  to_bus : String
  limit : ℚ := 0
  susceptance : ℚ := 0
  conductance : ℚ := 0
deriving DecidableEq

/-- A load entry of one period (`models/load.py`); the period index is the
position of its list inside `load_profile`. -/
structure Load where
  id : String := ""
  bus : String
  demand : ℚ
deriving DecidableEq

/-- A load-shedding entity (`models/deficit.py`). -/
structure Deficit where
  id : String := ""
  bus : String
  period : Nat
  max_deficit : ℚ
  cost : ℚ := 1000000
deriving DecidableEq

/-- The configuration map `system.config`, restricted to the keys the solver
layer consults.  The keys read through `flag_ativa` (`flags/utils.py`) are
`transporte`, `fluxo_dc`, `deficit`, `emissao`, `rampa`, `perdas`; the builder
additionally reads `usar_deficit` and `considerar_fluxo`
(`model_builder.py`), and `PyomoSolver.solve` reads `considerar_perdas`. -/
structure Config where
  transporte : Bool := false
  fluxo_dc : Bool := false
  deficit : Bool := false
  usar_deficit : Bool := false
  emissao : Bool := false
  rampa : Bool := false
  perdas : Bool := false
  considerar_fluxo : Bool := false
  considerar_perdas : Bool := false
  delta : ℚ := 1
  custo_emissao : ℚ := 0
deriving DecidableEq

/-- The aggregate system (`models/system.py`, class `System`, referred to as
`FullSystem` throughout the solver docstrings). -/
structure FullSystem where
  buses : List Bus
  lines : List Line
  load_profile : List (List Load)
  deficits : List Deficit := []
  base_power : ℚ := 100
  config : Config
  line_dict : List (String × Line) := []
deriving DecidableEq

namespace FullSystem

/-- `system.update_line_dict()` — rebuild the id-indexed line dictionary. -/
def update_line_dict (sys : FullSystem) : FullSystem :=
  { sys with line_dict := sys.lines.map (fun l => (l.id, l)) }

end FullSystem

/-- Generators in model order: `for bus in system.buses.values() for gen in
bus.generators` (`model_builder.py::definir_conjuntos`). -/
def genList (sys : FullSystem) : List Gen :=
  sys.buses.flatMap (·.generators)

/-- The index set `model.G`. -/
def genIds (sys : FullSystem) : List String :=
  (genList sys).map (·.id)

/-- The index set `model.B` (`list(system.buses.keys())`). -/
def busIds (sys : FullSystem) : List String :=
  sys.buses.map (·.id)

/-- The index set `model.L`. -/
def lineIds (sys : FullSystem) : List String :=
  sys.lines.map (·.id)

/-- Number of periods: `model.T = range(len(system.load_profile))`. -/
def numT (sys : FullSystem) : Nat :=
  sys.load_profile.length

/-- The sparse deficit index set `model.D`:
`[(d.bus, d.period) for d in system.deficits]`. -/
def deficitPairs (sys : FullSystem) : List (String × Nat) :=
  sys.deficits.map (fun d => (d.bus, d.period))

/-- `system.get_bus(b).generators`, by id lookup in the bus dict. -/
def busGenerators (sys : FullSystem) (b : String) : List Gen :=
  match sys.buses.find? (fun bus => bus.id = b) with
  | some bus => bus.generators
  | none => []

/-- Last-occurrence-wins dictionary lookup: the value a Python dict
comprehension `{key(x): val(x) for x in l}` stores under `k`. -/
def dictLookup {α β κ : Type} [DecidableEq κ]
    (key : α → κ) (val : α → β) (l : List α) (k : κ) : Option β :=
  (l.reverse.find? (fun x => key x = k)).map val

/-- Dictionary lookup with a default (a Pyomo `Param` with `default=`). -/
def dictGetD {α β κ : Type} [DecidableEq κ]
    (key : α → κ) (val : α → β) (dflt : β) (l : List α) (k : κ) : β :=
  (dictLookup key val l k).getD dflt

/-- `model.custo[g]` (`definir_parametros`). -/
def custoParam (sys : FullSystem) (g : String) : ℚ :=
  dictGetD (·.id) (·.cost) 0 (genList sys) g

/-- `model.gmin[g]`. -/
def gminParam (sys : FullSystem) (g : String) : ℚ :=
  dictGetD (·.id) (·.gmin) 0 (genList sys) g

/-- `model.gmax[g]`. -/
def gmaxParam (sys : FullSystem) (g : String) : ℚ :=
  dictGetD (·.id) (·.gmax) 0 (genList sys) g

/-- `model.emissao[g]` (`aplicar_emissao`). -/
def emissaoParam (sys : FullSystem) (g : String) : ℚ :=
  dictGetD (·.id) (·.emission) 0 (genList sys) g

/-- `model.rampa[g]` (`aplicar_rampa`, `default=0.0`). -/
def rampaParam (sys : FullSystem) (g : String) : ℚ :=
  dictGetD (·.id) (·.ramp) 0 (genList sys) g

/-- `model.susceptance[l]` (`aplicar_transporte` / `definir_parametros`). -/
def susceptanceParam (sys : FullSystem) (l : String) : ℚ :=
  dictGetD (·.id) (·.susceptance) 0 sys.lines l

/-- `model.conductance[l]`. -/
def conductanceParam (sys : FullSystem) (l : String) : ℚ :=
  dictGetD (·.id) (·.conductance) 0 sys.lines l

/-- `model.f_max[l]`. -/
def fmaxParam (sys : FullSystem) (l : String) : ℚ :=
  dictGetD (·.id) (·.limit) 0 sys.lines l

/-- The loads of period `t`. -/
def loadsAt (sys : FullSystem) (t : Nat) : List Load :=
  sys.load_profile.getD t []

/-- `model.demanda[b, t]` when present, else `0` — the builder materialises
`{(load.bus, t): load.demand}` and every balance rule falls back to `0` for
missing keys (`carga = model.demanda[b, t] if (b, t) in model.demanda else 0`). -/
def demanda (sys : FullSystem) (b : String) (t : Nat) : ℚ :=
  dictGetD (·.bus) (·.demand) 0 (loadsAt sys t) b

/-- `model.cost_deficit[b, t]` (`aplicar_deficit`, `Param(model.B, model.T,
default=0.0)`). -/
def costDeficitParam (sys : FullSystem) (b : String) (t : Nat) : ℚ :=
  dictGetD (fun d => (d.bus, d.period)) (·.cost) 0 sys.deficits (b, t)

/-- `model.max_deficit[b, t]` (`aplicar_deficit`, `Param(model.B, model.T,
default=0.0)`). -/
def maxDeficitParam (sys : FullSystem) (b : String) (t : Nat) : ℚ :=
  dictGetD (fun d => (d.bus, d.period)) (·.max_deficit) 0 sys.deficits (b, t)

/-- A value assignment for every variable family the model may declare; this is
what the solver oracle returns. -/
structure Assign where
  P : String → Nat → ℚ
  F : String → Nat → ℚ
  Deficit : String → Nat → ℚ
  theta : String → Nat → ℚ

/-- One declared decision variable of the assembled model. -/
inductive VarDecl where
  | P (g : String) (t : Nat)
  | F (l : String) (t : Nat)
  | Deficit (b : String) (t : Nat)
  | theta (b : String) (t : Nat)
deriving DecidableEq

/-- One constraint of the assembled model, tagged with its Pyomo component
name and index. -/
inductive MC where
  | limites (g : String) (t : Nat)
  | balanco (b : String) (t : Nat)
  | balancoTotal (t : Nat)
  | fluxoSup (l : String) (t : Nat)
  | fluxoInf (l : String) (t : Nat)
  | rampaSup (g : String) (t : Nat)
  | rampaInf (g : String) (t : Nat)
  | restringeGF (g : String) (t : Nat)
  | limiteDeficit (b : String) (t : Nat)
deriving DecidableEq

/-- Index product `xs × range n`. -/
def idxPairs {α : Type} (xs : List α) (n : Nat) : List (α × Nat) :=
  xs.flatMap (fun x => (List.range n).map (fun t => (x, t)))

/-- `definir_variaveis` (`model_builder.py`): `P` over `G × T`; `Deficit` over
`model.D` when `system.deficits` is non-empty; `F` over `L × T` when
`considerar_fluxo` is set.  (On a fresh model the initial `safe_del` calls
remove nothing.  `model.D` is materialised here as the deficit-pair list; in
the source it only exists when `usar_deficit` is set — with a non-empty
deficit list and `usar_deficit` unset the Python code would raise instead.) -/
def definirVariaveis (sys : FullSystem) : List VarDecl :=
  (idxPairs (genIds sys) (numT sys)).map (fun p => VarDecl.P p.1 p.2)
  ++ (if sys.deficits ≠ [] then
        (deficitPairs sys).map (fun p => VarDecl.Deficit p.1 p.2)
      else [])
  ++ (if sys.config.considerar_fluxo then
        (idxPairs (lineIds sys) (numT sys)).map (fun p => VarDecl.F p.1 p.2)
      else [])

/-- Variable effect of `aplicar_transporte` (`flags/transporte.py`): when the
`transporte` flag is active it `safe_del`s `F` and declares `F` over `L × T`. -/
def aplicarTransporteVars (sys : FullSystem) (vs : List VarDecl) : List VarDecl :=
  if sys.config.transporte then
    vs.filter (fun v => match v with | VarDecl.F _ _ => false | _ => true)
      ++ (idxPairs (lineIds sys) (numT sys)).map (fun p => VarDecl.F p.1 p.2)
  else vs

/-- Variable effect of `aplicar_deficit` (`flags/deficit.py`): when the
`deficit` flag is active it `safe_del`s `Deficit` and declares
`model.Deficit = Var(model.B, model.T, domain=NonNegativeReals)`. -/
def aplicarDeficitVars (sys : FullSystem) (vs : List VarDecl) : List VarDecl :=
  if sys.config.deficit then
    vs.filter (fun v => match v with | VarDecl.Deficit _ _ => false | _ => true)
      ++ (idxPairs (busIds sys) (numT sys)).map (fun p => VarDecl.Deficit p.1 p.2)
  else vs

/-- The decision variables of the assembled model, after `build_model` ran
`definir_variaveis` and then `definir_restricoes` (which applies the
transporte and deficit modules, in that order).  `aplicar_fluxo_dc`
(`flags/fluxo_dc.py`) is never invoked by `definir_restricoes`, so no `theta`
variable is ever declared. -/
def variaveis (sys : FullSystem) : List VarDecl :=
  aplicarDeficitVars sys (aplicarTransporteVars sys (definirVariaveis sys))

/-- Constraints contributed by `aplicar_transporte`: per-bus balance and flow
bounds when the `transporte` flag is active, otherwise the system-wide balance
`balanco_total`. -/
def aplicarTransporteCons (sys : FullSystem) : List MC :=
  if sys.config.transporte then
    (idxPairs (busIds sys) (numT sys)).map (fun p => MC.balanco p.1 p.2)
    ++ (idxPairs (lineIds sys) (numT sys)).map (fun p => MC.fluxoSup p.1 p.2)
    ++ (idxPairs (lineIds sys) (numT sys)).map (fun p => MC.fluxoInf p.1 p.2)
  else
    (List.range (numT sys)).map MC.balancoTotal

/-- Index pairs over `G × T` with `t > 0` — the ramp rules return
`Constraint.Skip` at `t == 0`. -/
def rampPairs (sys : FullSystem) : List (String × Nat) :=
  (idxPairs (genIds sys) (numT sys)).filter (fun p => p.2 ≠ 0)

/-- Constraints contributed by `aplicar_rampa` (`flags/rampa.py`). -/
def aplicarRampaCons (sys : FullSystem) : List MC :=
  if sys.config.rampa then
    (rampPairs sys).map (fun p => MC.rampaInf p.1 p.2)
    ++ (rampPairs sys).map (fun p => MC.rampaSup p.1 p.2)
  else []

/-- Ids of the fictitious generators, `model.GF`: generators whose id starts
with `"GF"` (`aplicar_deficit`). -/
def gfIds (sys : FullSystem) : List String :=
  ((genList sys).filter (fun g => g.id.startsWith "GF")).map (·.id)

/-- Constraints contributed by `aplicar_deficit` when the `deficit` flag is
active: `restringe_GF` over `GF × T` and `limite_deficit` over `B × T`. -/
def aplicarDeficitCons (sys : FullSystem) : List MC :=
  if sys.config.deficit then
    (idxPairs (gfIds sys) (numT sys)).map (fun p => MC.restringeGF p.1 p.2)
    ++ (idxPairs (busIds sys) (numT sys)).map (fun p => MC.limiteDeficit p.1 p.2)
  else []

/-- The constraint list of the assembled model, in the order of
`definir_restricoes` (`model_builder.py`): generation limits, then
`aplicar_transporte`, then `aplicar_rampa`, then `aplicar_deficit`. -/
def restricoes (sys : FullSystem) : List MC :=
  (idxPairs (genIds sys) (numT sys)).map (fun p => MC.limites p.1 p.2)
  ++ aplicarTransporteCons sys
  ++ aplicarRampaCons sys
  ++ aplicarDeficitCons sys

/-- Generation at a bus: `sum(model.P[g, t] for g in geradores_na_barra)`. -/
def geracaoBarra (sys : FullSystem) (a : Assign) (b : String) (t : Nat) : ℚ :=
  ((busGenerators sys b).map (fun g => a.P g.id t)).sum

/-- Inflow at a bus: `sum(model.F[l, t] for l in model.L if destination[l] == b)`. -/
def entrada (sys : FullSystem) (a : Assign) (b : String) (t : Nat) : ℚ :=
  ((sys.lines.filter (fun l => l.to_bus = b)).map (fun l => a.F l.id t)).sum

/-- Outflow at a bus: `sum(model.F[l, t] for l in model.L if origin[l] == b)`. -/
def saida (sys : FullSystem) (a : Assign) (b : String) (t : Nat) : ℚ :=
  ((sys.lines.filter (fun l => l.from_bus = b)).map (fun l => a.F l.id t)).sum

/-- Deficit term of the per-bus balance:
`model.Deficit[b, t] if flag_ativa("deficit", system) and (b, t) in model.D
else 0`. -/
def deficitTermo (sys : FullSystem) (a : Assign) (b : String) (t : Nat) : ℚ :=
  if sys.config.deficit ∧ (b, t) ∈ deficitPairs sys then a.Deficit b t else 0

/-- Meaning of each model constraint, translated rule by rule from
`model_builder.py` and the flag modules. -/
def holdsC (sys : FullSystem) (a : Assign) : MC → Prop
  | MC.limites g t =>
      gminParam sys g ≤ a.P g t ∧ a.P g t ≤ gmaxParam sys g
  | MC.balanco b t =>
      geracaoBarra sys a b t + entrada sys a b t - saida sys a b t
        + deficitTermo sys a b t = demanda sys b t
  | MC.balancoTotal t =>
      ((genIds sys).map (fun g => a.P g t)).sum
        + (if sys.config.deficit then
             (((deficitPairs sys).filter (fun p => p.2 = t)).map
               (fun p => a.Deficit p.1 t)).sum
           else 0)
        = ((busIds sys).map (fun b => demanda sys b t)).sum
  | MC.fluxoSup l t => a.F l t ≤ fmaxParam sys l
  | MC.fluxoInf l t => -(fmaxParam sys l) ≤ a.F l t
  | MC.rampaSup g t => a.P g t - a.P g (t - 1) ≤ rampaParam sys g
  | MC.rampaInf g t => a.P g (t - 1) - a.P g t ≤ rampaParam sys g
  | MC.restringeGF g t => a.P g t = 0
  | MC.limiteDeficit b t => a.Deficit b t ≤ maxDeficitParam sys b t

instance holdsCDec (sys : FullSystem) (a : Assign) :
    (c : MC) → Decidable (holdsC sys a c)
  | MC.limites g t => inferInstanceAs (Decidable
      (gminParam sys g ≤ a.P g t ∧ a.P g t ≤ gmaxParam sys g))
  | MC.balanco b t => inferInstanceAs (Decidable
      (geracaoBarra sys a b t + entrada sys a b t - saida sys a b t
        + deficitTermo sys a b t = demanda sys b t))
  | MC.balancoTotal t => inferInstanceAs (Decidable
      (((genIds sys).map (fun g => a.P g t)).sum
        + (if sys.config.deficit then
             (((deficitPairs sys).filter (fun p => p.2 = t)).map
               (fun p => a.Deficit p.1 t)).sum
           else 0)
        = ((busIds sys).map (fun b => demanda sys b t)).sum))
  | MC.fluxoSup l t => inferInstanceAs (Decidable (a.F l t ≤ fmaxParam sys l))
  | MC.fluxoInf l t => inferInstanceAs (Decidable (-(fmaxParam sys l) ≤ a.F l t))
  | MC.rampaSup g t => inferInstanceAs (Decidable
      (a.P g t - a.P g (t - 1) ≤ rampaParam sys g))
  | MC.rampaInf g t => inferInstanceAs (Decidable
      (a.P g (t - 1) - a.P g t ≤ rampaParam sys g))
  | MC.restringeGF g t => inferInstanceAs (Decidable (a.P g t = 0))
  | MC.limiteDeficit b t => inferInstanceAs (Decidable
      (a.Deficit b t ≤ maxDeficitParam sys b t))

/-- Domain condition of a declared variable (`NonNegativeReals` for `P` and
`Deficit`, `Reals` for `F` and `theta`). -/
def domOk (a : Assign) : VarDecl → Prop
  | VarDecl.P g t => 0 ≤ a.P g t
  | VarDecl.F _ _ => True
  | VarDecl.Deficit b t => 0 ≤ a.Deficit b t
  | VarDecl.theta _ _ => True

instance domOkDec (a : Assign) : (v : VarDecl) → Decidable (domOk a v)
  | VarDecl.P g t => inferInstanceAs (Decidable (0 ≤ a.P g t))
  | VarDecl.F _ _ => inferInstanceAs (Decidable True)
  | VarDecl.Deficit b t => inferInstanceAs (Decidable (0 ≤ a.Deficit b t))
  | VarDecl.theta _ _ => inferInstanceAs (Decidable True)

/-- An assignment is feasible for the assembled model when it respects every
variable domain and every constraint. -/
def satisfaz (sys : FullSystem) (a : Assign) : Prop :=
  (∀ v ∈ variaveis sys, domOk a v) ∧ ∀ c ∈ restricoes sys, holdsC sys a c

instance satisfazDec (sys : FullSystem) (a : Assign) : Decidable (satisfaz sys a) :=
  inferInstanceAs (Decidable ((∀ v ∈ variaveis sys, domOk a v)
    ∧ ∀ c ∈ restricoes sys, holdsC sys a c))

/-- `model.custo_base` (`aplicar_emissao`):
`sum(P[g,t] * custo[g] for g in model.G if not g.startswith("GF") for t in model.T)`.
The same expression is used for `model.fob_emissao` when the `emissao` flag is
off. -/
def custoBase (sys : FullSystem) (a : Assign) : ℚ :=
  (((genIds sys).filter (fun g => ¬ g.startsWith "GF")).map (fun g =>
    ((List.range (numT sys)).map (fun t => a.P g t * custoParam sys g)).sum)).sum

/-- `penal_emissao` (`aplicar_emissao`):
`sum(P[g,t] * emissao[g] for g in model.G for t in model.T)`. -/
def penalEmissao (sys : FullSystem) (a : Assign) : ℚ :=
  ((genIds sys).map (fun g =>
    ((List.range (numT sys)).map (fun t => a.P g t * emissaoParam sys g)).sum)).sum

/-- `model.fob_emissao` (`aplicar_emissao`): weighted cost-and-emission
expression when the `emissao` flag is active, plain real-generation cost
otherwise. -/
def fobEmissao (sys : FullSystem) (a : Assign) : ℚ :=
  if sys.config.emissao then
    sys.config.delta * custoBase sys a
      + (1 - sys.config.delta) * sys.config.custo_emissao * penalEmissao sys a
  else custoBase sys a

/-- `model.custo_deficit` (`aplicar_deficit`): deficit penalty
`sum(Deficit[b,t] * cost_deficit[b,t] for b in model.B for t in model.T)` when
the `deficit` flag is active, otherwise the fictitious-generation cost
`sum(P[g,t] * custo[g] for g in model.G if g.startswith("GF") for t in model.T)`. -/
def custoDeficitExpr (sys : FullSystem) (a : Assign) : ℚ :=
  if sys.config.deficit then
    ((busIds sys).map (fun b =>
      ((List.range (numT sys)).map (fun t =>
        a.Deficit b t * costDeficitParam sys b t)).sum)).sum
  else
    (((genIds sys).filter (fun g => g.startsWith "GF")).map (fun g =>
      ((List.range (numT sys)).map (fun t => a.P g t * custoParam sys g)).sum)).sum

/-- The minimised objective (`definir_objetivo`):
`model.fob_emissao.expr + model.custo_deficit.expr`. -/
def objetivo (sys : FullSystem) (a : Assign) : ℚ :=
  fobEmissao sys a + custoDeficitExpr sys a

/-!  Spec-side objective pieces.  These three definitions follow the *words of
the specification's Objective Composer section* (`Objective = delta ·
RealGenerationCost + (1 − delta) · EmissionCostCoefficient · EmissionPenalty +
DeficitCost`), phrased over the entities themselves; they are compared with the
source-derived `objetivo` above. -/

/-- Modelled from the spec: `RealGenerationCost = Σ P[g,t]·cost_g` over
non-fictitious generators. -/
def specRealGenerationCost (sys : FullSystem) (a : Assign) : ℚ :=
  (((genList sys).filter (fun g => ¬ g.id.startsWith "GF")).map (fun g =>
    ((List.range (numT sys)).map (fun t => a.P g.id t * g.cost)).sum)).sum

/-- Modelled from the spec: `EmissionPenalty = Σ P[g,t]·emission_g` over all
generators. -/
def specEmissionPenalty (sys : FullSystem) (a : Assign) : ℚ :=
  ((genList sys).map (fun g =>
    ((List.range (numT sys)).map (fun t => a.P g.id t * g.emission)).sum)).sum

/-- Whether any `Deficit` decision variable exists in the assembled model. -/
def deficitVarsExist (sys : FullSystem) : Bool :=
  (variaveis sys).any (fun v => match v with | VarDecl.Deficit _ _ => true | _ => false)

/-- Modelled from the spec: `DeficitCost = Σ Deficit[b,t]·cost_{b,t}` over the
Deficit entities if deficit variables exist, else `Σ P[gf,t]·cost_{gf}` over
fictitious generators only. -/
def specDeficitCost (sys : FullSystem) (a : Assign) : ℚ :=
  if deficitVarsExist sys then
    (sys.deficits.map (fun d => a.Deficit d.bus d.period * d.cost)).sum
  else
    (((genList sys).filter (fun g => g.id.startsWith "GF")).map (fun g =>
      ((List.range (numT sys)).map (fun t => a.P g.id t * g.cost)).sum)).sum

/-!  The iterative loss engine
(`flags/perdas.py` and `pyomo_solver.py::aplicar_perdas_iterativamente`). -/

/-- A per-(bus, period) loss dictionary, modelled as a total function; its key
set is always `busIds × range numT` (`inicializar_perdas`). -/
def LossMap : Type := String × Nat → ℚ

/-- `inicializar_perdas`: the all-zero loss dictionary. -/
def inicializarPerdas : LossMap := fun _ => 0

/-- The key set of every loss dictionary:
`{(bus, t) for bus in system.buses for t in range(len(system.load_profile))}`. -/
def lossKeys (sys : FullSystem) : List (String × Nat) :=
  idxPairs (busIds sys) (numT sys)

/-- `armazenar_carga_base`: the demand dictionary
`{(load.bus, t): load.demand}` before losses are introduced. -/
def armazenarCargaBase (sys : FullSystem) : LossMap := fun p =>
  dictGetD (·.bus) (·.demand) 0 (loadsAt sys p.2) p.1

/-- Point update of a loss dictionary (`perdas[chave] += valor`). -/
def bump (m : LossMap) (k : String × Nat) (v : ℚ) : LossMap :=
  fun q => if q = k then m k + v else m q

/-- The per-line loss of one period (`calcular_perdas`, loop body):
`g * ((theta_i - theta_j) ** 2)` in DC mode, else
`g * ((fluxo / b) ** 2 if b != 0 else 0.0)`, with `g`, `b` the conductance and
susceptance parameters looked up by line id. -/
def perdaLinhaVal (sys : FullSystem) (a : Assign) (linha : Line) (t : Nat) : ℚ :=
  if sys.config.fluxo_dc then
    conductanceParam sys linha.id *
      (a.theta linha.from_bus t - a.theta linha.to_bus t) ^ 2
  else
    conductanceParam sys linha.id *
      (if susceptanceParam sys linha.id ≠ 0 then
        (a.F linha.id t / susceptanceParam sys linha.id) ^ 2
      else 0)

/-- Inner step of `calcular_perdas`: accumulate one line/period loss into the
per-bus dictionary (half at each endpoint) and into the running total. -/
def perdaStep (sys : FullSystem) (a : Assign) (st : LossMap × ℚ)
    (p : Line × Nat) : LossMap × ℚ :=
  let perda := perdaLinhaVal sys a p.1 p.2
  (bump (bump st.1 (p.1.from_bus, p.2) (1/2 * perda)) (p.1.to_bus, p.2) (1/2 * perda),
   st.2 + perda)

/-- `calcular_perdas`: fold the loss of every line and period into a fresh
zero dictionary and a zero total, following the two nested source loops. -/
def calcularPerdas (sys : FullSystem) (a : Assign) : LossMap × ℚ :=
  (idxPairs sys.lines (numT sys)).foldl (perdaStep sys a) (inicializarPerdas, 0)

/-- `atualizar_cargas_com_perdas`: rewrite every load's demand to
`carga_base[(bus, t)] + perdas[(bus, t)]`. -/
def atualizarCargasComPerdas (sys : FullSystem) (cargaBase perdas : LossMap) :
    FullSystem :=
  { sys with
    load_profile := sys.load_profile.mapIdx (fun t cargas =>
      cargas.map (fun carga =>
        { carga with demand := cargaBase (carga.bus, t) + perdas (carga.bus, t) })) }

/-- `calcular_diferenca_perdas`: `sum(abs(p2[k] - p1[k]) for k in p1)`; the key
set of `p1` is always `lossKeys`. -/
def calcularDiferencaPerdas (keys : List (String × Nat)) (p1 p2 : LossMap) : ℚ :=
  (keys.map (fun k => |p2 k - p1 k|)).sum

/-- The non-convergence error message raised by
`aplicar_perdas_iterativamente`. -/
def nonConvMsg : String :=
  "O processo de perdas nao convergiu apos o numero maximo de iteracoes."

/-- The while-loop of `aplicar_perdas_iterativamente`, with the remaining
iteration budget as fuel.  Each pass solves the current model (the oracle),
computes and redistributes losses, updates the demands from the captured base
demand, and tests `delta < epsilon`; on convergence it returns the updated
system together with the final loss dictionary and total, otherwise it saves
the losses as the previous ones and recurses on the rebuilt (demand-updated)
system.  Exhausted fuel is the `RuntimeError` branch. -/
def lossIter (oracle : FullSystem → Assign) (eps : ℚ)
    (keys : List (String × Nat)) (cargaBase : LossMap) :
    Nat → FullSystem → LossMap → Except String (FullSystem × LossMap × ℚ)
  | 0, _, _ => Except.error nonConvMsg
  | fuel + 1, sys, prev =>
    let a := oracle sys
    let res := calcularPerdas sys a
    let sys' := atualizarCargasComPerdas sys cargaBase res.1
    let delta := calcularDiferencaPerdas keys prev res.1
    if delta < eps then Except.ok (sys', res.1, res.2)
    else lossIter oracle eps keys cargaBase fuel sys' res.1

/-- `aplicar_perdas_iterativamente` (`pyomo_solver.py`): capture the base
demand, zero-initialise the previous losses, run the bounded loop, and on
convergence rebuild the model from the converged demand and solve it one final
time; the returned tuple carries the converged system, the final loss
dictionary and total (`self._perdas_finais`), and the final solution. -/
def aplicarPerdasIterativamente (oracle : FullSystem → Assign)
    (sys : FullSystem) (maxIter : Nat := 40) (eps : ℚ := 1 / 10 ^ 16) :
    Except String (FullSystem × LossMap × ℚ × Assign) :=
  match lossIter oracle eps (lossKeys sys) (armazenarCargaBase sys)
      maxIter sys inicializarPerdas with
  | Except.error e => Except.error e
  | Except.ok (sys', perdas, total) => Except.ok (sys', perdas, total, oracle sys')

/-- The sequence of systems the loss loop walks through: `lossS 0` is the
input system; `lossS (k+1)` re-adds the k-th losses to the base demand. -/
def lossS (oracle : FullSystem → Assign) (sys0 : FullSystem) : Nat → FullSystem
  | 0 => sys0
  | k + 1 =>
    let sysK := lossS oracle sys0 k
    atualizarCargasComPerdas sysK (armazenarCargaBase sys0)
      (calcularPerdas sysK (oracle sysK)).1

/-- The loss dictionary computed in the k-th pass. -/
def lossL (oracle : FullSystem → Assign) (sys0 : FullSystem) (k : Nat) : LossMap :=
  (calcularPerdas (lossS oracle sys0 k) (oracle (lossS oracle sys0 k))).1

/-- The total loss computed in the k-th pass. -/
def lossTot (oracle : FullSystem → Assign) (sys0 : FullSystem) (k : Nat) : ℚ :=
  (calcularPerdas (lossS oracle sys0 k) (oracle (lossS oracle sys0 k))).2

/-- The previous-losses dictionary at the start of the k-th pass. -/
def lossPrev (oracle : FullSystem → Assign) (sys0 : FullSystem) : Nat → LossMap
  | 0 => inicializarPerdas
  | k + 1 => lossL oracle sys0 k

/-- `Δ` of the k-th pass: `Σ |loss_new − loss_prev|` over all (bus, period). -/
def lossDelta (oracle : FullSystem → Assign) (sys0 : FullSystem) (k : Nat) : ℚ :=
  calcularDiferencaPerdas (lossKeys sys0) (lossPrev oracle sys0 k)
    (lossL oracle sys0 k)

/-!  The N-1 contingency runner (`experiments/experimentos.py`). -/

/-- The base generators of the sweep:
`[g for bus in buses for g in bus.generators if not g.id.startswith("GF")]`. -/
def geradoresBase (sys : FullSystem) : List Gen :=
  (genList sys).filter (fun g => ¬ g.id.startsWith "GF")

/-- Remove one generator from its bus's generator list
(`bus.generators = [g for g in bus.generators if g.id != gerador.id]`). -/
def removeGen (sys : FullSystem) (gerador : Gen) : FullSystem :=
  { sys with
    buses := sys.buses.map (fun bus =>
      if bus.id = gerador.bus then
        { bus with generators := bus.generators.filter (fun g => g.id ≠ gerador.id) }
      else bus) }

/-- Remove one line from the line list and refresh the line dictionary
(`sistema.lines = [l for l in sistema.lines if l.id != linha.id]` followed by
`sistema.update_line_dict()`). -/
def removeLine (sys : FullSystem) (linhaId : String) : FullSystem :=
  FullSystem.update_line_dict
    { sys with lines := sys.lines.filter (fun l => l.id ≠ linhaId) }

/-- `simular_n_menos_1`: one scenario per base (non-fictitious) generator and
then one per line, each run on a freshly loaded copy of the system with
exactly that element removed, tagged with the removed element's id, and all
results concatenated.  `run` stands for the build→solve→extract pipeline of
one scenario (its first argument the scenario system, its second the
`elemento_removido` tag).  Modelled from the spec: the JSON loader is an
external collaborator ("Out of scope … the JSON system-description loader"),
so `DataLoader(json_path, {"deficit": …}).load_system()` — whose two-argument
form does not match the one-argument loader under `src` — is modelled as
handing back the same freshly loaded base system value for every scenario. -/
def simularNMenos1 {R : Type} (run : FullSystem → String → R)
    (load : FullSystem) : List R :=
  (geradoresBase load).map (fun gerador =>
    run (removeGen load gerador) gerador.id)
  ++ load.lines.map (fun linha =>
    run (removeLine load linha.id) linha.id)

/-- The scenario list of the N-1 sweep: the tag and the system each scenario
is solved on. -/
def nMinus1Scenarios (load : FullSystem) : List (String × FullSystem) :=
  simularNMenos1 (fun s tag => (tag, s)) load

/-!  Generic list and dictionary lemmas used throughout. -/

lemma idxPairs_eq_product {α : Type} (xs : List α) (n : Nat) :
    idxPairs xs n = xs ×ˢ List.range n := rfl

lemma mem_idxPairs {α : Type} {xs : List α} {n : Nat} {x : α} {t : Nat} :
    (x, t) ∈ idxPairs xs n ↔ x ∈ xs ∧ t < n := by
  rw [idxPairs_eq_product]
  simp [List.mem_product]

lemma idxPairs_nodup {α : Type} {xs : List α} (hx : xs.Nodup) (n : Nat) :
    (idxPairs xs n).Nodup := by
  rw [idxPairs_eq_product]
  exact hx.product (List.nodup_range _)

lemma count_map_pairs_eq_one {f : String × Nat → MC} (hf : Function.Injective f)
    {xs : List String} (hx : xs.Nodup) {n : Nat} {b : String} {t : Nat}
    (hb : b ∈ xs) (ht : t < n) :
    ((idxPairs xs n).map f).count (f (b, t)) = 1 := by
  rw [List.count_map_of_injective _ f hf]
  exact List.count_eq_one_of_mem (idxPairs_nodup hx n) (mem_idxPairs.2 ⟨hb, ht⟩)

lemma count_map_eq_zero {α : Type} [DecidableEq α] {l : List α} {f : α → MC} {c : MC}
    (h : ∀ x ∈ l, f x ≠ c) : (l.map f).count c = 0 := by
  rw [List.count_eq_zero]
  intro hc
  rcases List.mem_map.1 hc with ⟨x, hx, hfx⟩
  exact h x hx hfx

lemma balanco_not_mem_rampa (sys : FullSystem) (b : String) (t : Nat) :
    MC.balanco b t ∉ aplicarRampaCons sys := by
  unfold aplicarRampaCons
  split
  · intro h
    rcases List.mem_append.1 h with h | h <;>
      · rcases List.mem_map.1 h with ⟨p, _, hp⟩
        simp at hp
  · simp

lemma balanco_not_mem_deficit (sys : FullSystem) (b : String) (t : Nat) :
    MC.balanco b t ∉ aplicarDeficitCons sys := by
  unfold aplicarDeficitCons
  split
  · intro h
    rcases List.mem_append.1 h with h | h <;>
      · rcases List.mem_map.1 h with ⟨p, _, hp⟩
        simp at hp
  · simp

lemma balanco_mem_restricoes {sys : FullSystem} (htr : sys.config.transporte = true)
    {b : String} {t : Nat} (hb : b ∈ busIds sys) (ht : t < numT sys) :
    MC.balanco b t ∈ restricoes sys := by
  unfold restricoes
  refine List.mem_append.2 (Or.inl (List.mem_append.2 (Or.inl
    (List.mem_append.2 (Or.inr ?_)))))
  unfold aplicarTransporteCons
  rw [if_pos htr]
  exact List.mem_append.2 (Or.inl (List.mem_append.2 (Or.inl
    (List.mem_map.2 ⟨(b, t), mem_idxPairs.2 ⟨hb, ht⟩, rfl⟩))))

/-- C1.  In a model assembled with the per-bus (transport) flow formulation
active, the builder emits exactly one balance constraint for every
(bus, period) pair — and no system-wide balance constraint — whose meaning is
`generation_at_bus + inflow - outflow + deficit_at_bus == demand_at_bus`,
where the deficit term is present only when deficit mode is on and the pair
carries a Deficit entity; consequently every feasible (solved) assignment
satisfies that equation exactly, hence within any positive solver tolerance. -/
theorem balanco_unico_por_barra (sys : FullSystem)
    (htr : sys.config.transporte = true) (hnb : (busIds sys).Nodup) :
    (∀ b ∈ busIds sys, ∀ t, t < numT sys →
      (restricoes sys).count (MC.balanco b t) = 1) ∧
    (∀ t, MC.balancoTotal t ∉ restricoes sys) ∧
    (∀ a b t, ¬ (sys.config.deficit = true ∧ (b, t) ∈ deficitPairs sys) →
      deficitTermo sys a b t = 0) ∧
    (∀ a, satisfaz sys a → ∀ b ∈ busIds sys, ∀ t, t < numT sys →
      geracaoBarra sys a b t + entrada sys a b t - saida sys a b t
          + deficitTermo sys a b t = demanda sys b t ∧
      ∀ tol : ℚ, 0 < tol →
        |geracaoBarra sys a b t + entrada sys a b t - saida sys a b t
            + deficitTermo sys a b t - demanda sys b t| < tol) := by
  refine ⟨?_, ?_, ?_, ?_⟩
  · intro b hb t ht
    unfold restricoes
    rw [List.count_append, List.count_append, List.count_append]
    rw [count_map_eq_zero (c := MC.balanco b t) (by intro x hx; simp)]
    rw [List.count_eq_zero.2 (balanco_not_mem_rampa sys b t)]
    rw [List.count_eq_zero.2 (balanco_not_mem_deficit sys b t)]
    unfold aplicarTransporteCons
    rw [if_pos htr, List.count_append, List.count_append]
    rw [count_map_pairs_eq_one (f := fun p => MC.balanco p.1 p.2)
      (by intro p q h; simpa [Prod.ext_iff] using h) hnb hb ht]
    rw [count_map_eq_zero (c := MC.balanco b t) (by intro x hx; simp)]
    rw [count_map_eq_zero (c := MC.balanco b t) (by intro x hx; simp)]
  · intro t h
    unfold restricoes at h
    rcases List.mem_append.1 h with h | h
    · rcases List.mem_append.1 h with h | h
      · rcases List.mem_append.1 h with h | h
        · rcases List.mem_map.1 h with ⟨p, _, hp⟩; simp at hp
        · unfold aplicarTransporteCons at h
          rw [if_pos htr] at h
          rcases List.mem_append.1 h with h | h
          · rcases List.mem_append.1 h with h | h <;>
              · rcases List.mem_map.1 h with ⟨p, _, hp⟩; simp at hp
          · rcases List.mem_map.1 h with ⟨p, _, hp⟩; simp at hp
      · unfold aplicarRampaCons at h
        split at h
        · rcases List.mem_append.1 h with h | h <;>
            · rcases List.mem_map.1 h with ⟨p, _, hp⟩; simp at hp
        · simp at h
    · unfold aplicarDeficitCons at h
      split at h
      · rcases List.mem_append.1 h with h | h <;>
          · rcases List.mem_map.1 h with ⟨p, _, hp⟩; simp at hp
      · simp at h
  · intro a b t hno
    unfold deficitTermo
    rw [if_neg]
    intro hc
    exact hno ⟨by simpa using hc.1, hc.2⟩
  · intro a ha b hb t ht
    have heq : holdsC sys a (MC.balanco b t) :=
      ha.2 _ (balanco_mem_restricoes htr hb ht)
    refine ⟨heq, ?_⟩
    intro tol htol
    rw [show geracaoBarra sys a b t + entrada sys a b t - saida sys a b t
        + deficitTermo sys a b t = demanda sys b t from heq]
    simpa using htol

lemma dictGetD_eq_default {α β κ : Type} [DecidableEq κ] {key : α → κ}
    {val : α → β} {dflt : β} {l : List α} {k : κ}
    (h : ∀ x ∈ l, key x ≠ k) : dictGetD key val dflt l k = dflt := by
  unfold dictGetD dictLookup
  have hnone : l.reverse.find? (fun x => key x = k) = none := by
    rw [List.find?_eq_none]
    intro x hx
    simpa using h x (List.mem_reverse.1 hx)
  rw [hnone]
  rfl

lemma dictGetD_eq_of_mem {α β κ : Type} [DecidableEq κ] {k : α → κ}
    {v : α → β} {d : β} {l : List α}
    (hnd : (l.map k).Nodup) {x : α} (hx : x ∈ l) :
    dictGetD k v d l (k x) = v x := by
  unfold dictGetD dictLookup
  cases hfind : l.reverse.find? (fun y => k y = k x) with
  | none =>
    exfalso
    have := List.find?_eq_none.1 hfind x (List.mem_reverse.2 hx)
    simp at this
  | some y =>
    have hy : y ∈ l := List.mem_reverse.1 (List.mem_of_find?_eq_some hfind)
    have hkey : k y = k x := by simpa using List.find?_some hfind
    have : y = x := List.inj_on_of_nodup_map hnd hy hx hkey
    subst this
    rfl

lemma deficit_var_not_mem_variaveis {sys : FullSystem}
    (hd : sys.config.deficit = false) (hde : sys.deficits = [])
    (b : String) (t : Nat) : VarDecl.Deficit b t ∉ variaveis sys := by
  intro h
  unfold variaveis aplicarDeficitVars at h
  rw [hd] at h
  simp only [Bool.false_eq_true, if_false] at h
  unfold aplicarTransporteVars at h
  have hdef : VarDecl.Deficit b t ∉ definirVariaveis sys := by
    intro h
    unfold definirVariaveis at h
    rcases List.mem_append.1 h with h | h
    · rcases List.mem_append.1 h with h | h
      · rcases List.mem_map.1 h with ⟨p, _, hp⟩; simp at hp
      · rw [hde] at h; simp at h
    · split at h
      · rcases List.mem_map.1 h with ⟨p, _, hp⟩; simp at hp
      · simp at h
  split at h
  · rcases List.mem_append.1 h with h | h
    · exact hdef (List.mem_of_mem_filter h)
    · rcases List.mem_map.1 h with ⟨p, _, hp⟩; simp at hp
  · exact hdef h

lemma restringeGF_not_mem_restricoes {sys : FullSystem}
    (hd : sys.config.deficit = false) (g : String) (t : Nat) :
    MC.restringeGF g t ∉ restricoes sys := by
  intro h
  unfold restricoes at h
  rcases List.mem_append.1 h with h | h
  · rcases List.mem_append.1 h with h | h
    · rcases List.mem_append.1 h with h | h
      · rcases List.mem_map.1 h with ⟨p, _, hp⟩; simp at hp
      · unfold aplicarTransporteCons at h
        split at h
        · rcases List.mem_append.1 h with h | h
          · rcases List.mem_append.1 h with h | h <;>
              · rcases List.mem_map.1 h with ⟨p, _, hp⟩; simp at hp
          · rcases List.mem_map.1 h with ⟨p, _, hp⟩; simp at hp
        · rcases List.mem_map.1 h with ⟨p, _, hp⟩; simp at hp
    · unfold aplicarRampaCons at h
      split at h
      · rcases List.mem_append.1 h with h | h <;>
          · rcases List.mem_map.1 h with ⟨p, _, hp⟩; simp at hp
      · simp at h
  · unfold aplicarDeficitCons at h
    rw [hd] at h
    simp at h

lemma limites_mem_restricoes {sys : FullSystem} {g : String} {t : Nat}
    (hg : g ∈ genIds sys) (ht : t < numT sys) :
    MC.limites g t ∈ restricoes sys := by
  unfold restricoes
  exact List.mem_append.2 (Or.inl (List.mem_append.2 (Or.inl
    (List.mem_append.2 (Or.inl
      (List.mem_map.2 ⟨(g, t), mem_idxPairs.2 ⟨hg, ht⟩, rfl⟩))))))

/-- C3.  Deficit/Fictitious exclusivity: when the `deficit` flag is on, every
fictitious generator (id prefixed `"GF"`) is constrained to zero output in
every period, so any feasible assignment has `P[gf,t] = 0`; when the flag is
off (so that, by the loader invariant, no Deficit entity was loaded), no
`Deficit` variable exists in the assembled model, no zero-output constraint is
emitted, and fictitious generators are subject only to their `limites`
bounds.  The two balancing mechanisms are therefore never both free. -/
theorem deficit_ficticio_exclusivo (sys : FullSystem)
    (hcoh : sys.config.usar_deficit = sys.config.deficit)
    (hload : sys.config.usar_deficit = false → sys.deficits = []) :
    (sys.config.deficit = true →
      ∀ g ∈ genList sys, g.id.startsWith "GF" = true → ∀ t, t < numT sys →
        MC.restringeGF g.id t ∈ restricoes sys ∧
        ∀ a, satisfaz sys a → a.P g.id t = 0) ∧
    (sys.config.deficit = false →
      (∀ b t, VarDecl.Deficit b t ∉ variaveis sys) ∧
      (∀ g t, MC.restringeGF g t ∉ restricoes sys) ∧
      (∀ g ∈ genIds sys, ∀ t, t < numT sys → MC.limites g t ∈ restricoes sys)) := by
  constructor
  · intro hd g hg hgf t ht
    have hmem : MC.restringeGF g.id t ∈ restricoes sys := by
      unfold restricoes
      refine List.mem_append.2 (Or.inr ?_)
      unfold aplicarDeficitCons
      rw [if_pos hd]
      refine List.mem_append.2 (Or.inl (List.mem_map.2 ⟨(g.id, t), ?_, rfl⟩))
      refine mem_idxPairs.2 ⟨?_, ht⟩
      exact List.mem_map.2 ⟨g, List.mem_filter.2 ⟨hg, by simpa using hgf⟩, rfl⟩
    refine ⟨hmem, fun a ha => ?_⟩
    exact ha.2 _ hmem
  · intro hd
    have hde : sys.deficits = [] := hload (hcoh.trans hd)
    exact ⟨fun b t => deficit_var_not_mem_variaveis hd hde b t,
      fun g t => restringeGF_not_mem_restricoes hd g t,
      fun g hg t ht => limites_mem_restricoes hg ht⟩

/-- Concrete deficit-mode system for the C3 witness: one real and one
fictitious generator, deficit flag on. -/
def sysW3 : FullSystem where
  buses := [{ id := "B1",
              generators := [{ id := "GT1", bus := "B1", gmax := 10, cost := 5 },
                             { id := "GF1", bus := "B1", gmax := 1000, cost := 1000000 }] }]
  lines := []
  load_profile := [[{ id := "C1", bus := "B1", demand := 2 }]]
  deficits := [{ bus := "B1", period := 0, max_deficit := 2, cost := 100 }]
  config := { deficit := true, usar_deficit := true }

/-- A feasible assignment for `sysW3` (fictitious output forced to zero). -/
def assignW3 : Assign where
  P := fun g _ => if g = "GT1" then 2 else 0
  F := fun _ _ => 0
  Deficit := fun _ _ => 0
  theta := fun _ _ => 0

/-- The same system with the deficit flag off and no Deficit entities. -/
def sysW3off : FullSystem where
  buses := sysW3.buses
  lines := []
  load_profile := sysW3.load_profile
  deficits := []
  config := { deficit := false, usar_deficit := false }

/-- Witness for C3: on `sysW3` the zero-output constraint on the fictitious
generator is present and forces `P["GF1", 0] = 0` at a concrete feasible
point; on `sysW3off` no Deficit variable exists. -/
theorem deficit_ficticio_exclusivo_witness :
    satisfaz sysW3 assignW3 ∧
    MC.restringeGF "GF1" 0 ∈ restricoes sysW3 ∧
    assignW3.P "GF1" 0 = 0 ∧
    VarDecl.Deficit "B1" 0 ∉ variaveis sysW3off := by
  refine ⟨by with_unfolding_all decide, ?_, ?_, ?_⟩
  · exact ((deficit_ficticio_exclusivo sysW3 rfl (by intro h; cases h)).1 rfl
      { id := "GF1", bus := "B1", gmax := 1000, cost := 1000000 }
      (by decide) (by with_unfolding_all decide) 0 (by decide)).1
  · exact ((deficit_ficticio_exclusivo sysW3 rfl (by intro h; cases h)).1 rfl
      { id := "GF1", bus := "B1", gmax := 1000, cost := 1000000 }
      (by decide) (by with_unfolding_all decide) 0 (by decide)).2 assignW3 (by with_unfolding_all decide)
  · exact ((deficit_ficticio_exclusivo sysW3off rfl (fun _ => rfl)).2 rfl).1 "B1" 0

/-- Variable effect of `aplicar_fluxo_dc` (`flags/fluxo_dc.py`), as the source
defines it: when the `fluxo_dc` flag is active it `safe_del`s `theta` and `F`
and declares only the angle variables `theta` over `B × T` — `F` becomes a
derived `Expression`, not a `Var`; otherwise it falls back to
`aplicar_transporte`.  `definir_restricoes` (`model_builder.py`) never invokes
this function. -/
def aplicarFluxoDCVars (sys : FullSystem) (vs : List VarDecl) : List VarDecl :=
  if sys.config.fluxo_dc then
    (vs.filter (fun v => match v with
      | VarDecl.theta _ _ => false
      | VarDecl.F _ _ => false
      | _ => true))
      ++ (idxPairs (busIds sys) (numT sys)).map (fun p => VarDecl.theta p.1 p.2)
  else aplicarTransporteVars sys vs

/-- The derived DC flow expression of `aplicar_fluxo_dc`:
`F[l,t] = susceptance[l] * (theta[de[l], t] - theta[para[l], t])`. -/
def fluxoDCExpr (sys : FullSystem) (a : Assign) (l : String) (t : Nat) : ℚ :=
  susceptanceParam sys l *
    (a.theta (dictGetD (·.id) (·.from_bus) "" sys.lines l) t
      - a.theta (dictGetD (·.id) (·.to_bus) "" sys.lines l) t)

/-- Whether a declared variable is an angle variable. -/
def isThetaVar : VarDecl → Bool
  | VarDecl.theta _ _ => true
  | _ => false

/-- Whether a declared variable is a flow variable. -/
def isFVar : VarDecl → Bool
  | VarDecl.F _ _ => true
  | _ => false

/-- Concrete system with both `fluxo_dc` and `transporte` enabled. -/
def sysC2 : FullSystem where
  buses := [{ id := "B1", generators := [{ id := "GT1", bus := "B1", gmax := 10, cost := 5 }] },
            { id := "B2", generators := [] }]
  lines := [{ id := "L0", from_bus := "B1", to_bus := "B2", limit := 5, susceptance := 1 }]
  load_profile := [[{ id := "C1", bus := "B2", demand := 2 }]]
  config := { transporte := true, fluxo_dc := true }

/-- `sysC2` with the DC flag turned off. -/
def sysC2semDC : FullSystem where
  buses := sysC2.buses
  lines := sysC2.lines
  load_profile := sysC2.load_profile
  config := { transporte := true, fluxo_dc := false }

/-- C2 fails on the code: `build_model → definir_restricoes` applies only
`aplicar_transporte` and never `aplicar_fluxo_dc`, so with the DC-flow flag
enabled the assembled model is *identical* to the one built with the flag off
— `F[l,t]` remains a decision variable with the transport bounds and no angle
variable `theta` is ever declared — while the never-invoked
`aplicar_fluxo_dc` would have replaced `F` by angle variables as the claim
(and `flags/perdas.py`, which reads `model.theta` in DC mode) expects. -/
theorem fluxo_dc_ignorado_pelo_builder :
    sysC2.config.fluxo_dc = true ∧ sysC2.config.transporte = true ∧
    variaveis sysC2 = variaveis sysC2semDC ∧
    restricoes sysC2 = restricoes sysC2semDC ∧
    VarDecl.F "L0" 0 ∈ variaveis sysC2 ∧
    (variaveis sysC2).all (fun v => !(isThetaVar v)) = true ∧
    MC.fluxoSup "L0" 0 ∈ restricoes sysC2 ∧
    MC.fluxoInf "L0" 0 ∈ restricoes sysC2 ∧
    (aplicarFluxoDCVars sysC2 (definirVariaveis sysC2)).all
      (fun v => !(isFVar v)) = true ∧
    VarDecl.theta "B1" 0 ∈ aplicarFluxoDCVars sysC2 (definirVariaveis sysC2) := by
  with_unfolding_all decide

/-- Concrete deficit-mode system for C9 with a bus-period pair that carries no
Deficit entity. -/
def sysW9 : FullSystem where
  buses := [{ id := "B1", generators := [{ id := "GT1", bus := "B1", gmax := 10, cost := 5 }] },
            { id := "B2", generators := [] }]
  lines := []
  load_profile := [[{ id := "C1", bus := "B1", demand := 2 }]]
  deficits := [{ bus := "B1", period := 0, max_deficit := 2, cost := 100 }]
  config := { deficit := true, usar_deficit := true }

/-- Counterexample to C9 as stated: in the assembled model of `sysW9` a
`Deficit` decision variable exists for the pair `("B2", 0)` even though that
pair carries no Deficit entity — `aplicar_deficit` declares
`Var(model.B, model.T)`, not `Var(model.D)`. -/
theorem deficit_vars_nao_apenas_D :
    sysW9.config.deficit = true ∧
    VarDecl.Deficit "B2" 0 ∈ variaveis sysW9 ∧
    ("B2", 0) ∉ deficitPairs sysW9 := by
  with_unfolding_all decide

/-- C9 (amended).  When deficit mode is enabled, the non-negative decision
variables `Deficit[b,t]` exist for every (bus, period) pair of `B × T`; each
is bounded above by `max_deficit[b,t]`, which equals the entity's maximum
allowed unmet demand for the pairs of the sparse set `D` and defaults to `0`
for pairs that carry no Deficit entity (forcing those variables to zero). -/
theorem deficit_vars_sobre_B_T (sys : FullSystem)
    (hd : sys.config.deficit = true) (hnd : (deficitPairs sys).Nodup) :
    ∀ b ∈ busIds sys, ∀ t, t < numT sys →
      VarDecl.Deficit b t ∈ variaveis sys ∧
      MC.limiteDeficit b t ∈ restricoes sys ∧
      (∀ a, satisfaz sys a →
        0 ≤ a.Deficit b t ∧ a.Deficit b t ≤ maxDeficitParam sys b t) ∧
      (∀ d ∈ sys.deficits, d.bus = b → d.period = t →
        maxDeficitParam sys b t = d.max_deficit) ∧
      ((b, t) ∉ deficitPairs sys → maxDeficitParam sys b t = 0) := by
  intro b hb t ht
  have hvar : VarDecl.Deficit b t ∈ variaveis sys := by
    unfold variaveis aplicarDeficitVars
    rw [if_pos hd]
    exact List.mem_append.2 (Or.inr
      (List.mem_map.2 ⟨(b, t), mem_idxPairs.2 ⟨hb, ht⟩, rfl⟩))
  have hcon : MC.limiteDeficit b t ∈ restricoes sys := by
    unfold restricoes
    refine List.mem_append.2 (Or.inr ?_)
    unfold aplicarDeficitCons
    rw [if_pos hd]
    exact List.mem_append.2 (Or.inr
      (List.mem_map.2 ⟨(b, t), mem_idxPairs.2 ⟨hb, ht⟩, rfl⟩))
  refine ⟨hvar, hcon, fun a ha => ⟨ha.1 _ hvar, ha.2 _ hcon⟩, ?_, ?_⟩
  · intro d hdm hdb hdt
    subst hdb; subst hdt
    exact dictGetD_eq_of_mem hnd hdm
  · intro hnot
    refine dictGetD_eq_default ?_
    intro d hdm hkey
    exact hnot (hkey ▸ List.mem_map.2 ⟨d, hdm, rfl⟩)

/-- A feasible assignment for `sysW9` using part of the allowed deficit. -/
def assignW9 : Assign where
  P := fun g _ => if g = "GT1" then 1 else 0
  F := fun _ _ => 0
  Deficit := fun b _ => if b = "B1" then 1 else 0
  theta := fun _ _ => 0

/-- Witness for C9's amended theorem on the concrete system `sysW9`. -/
theorem deficit_vars_sobre_B_T_witness :
    satisfaz sysW9 assignW9 ∧
    VarDecl.Deficit "B1" 0 ∈ variaveis sysW9 ∧
    (0 ≤ assignW9.Deficit "B1" 0 ∧
      assignW9.Deficit "B1" 0 ≤ maxDeficitParam sysW9 "B1" 0) ∧
    maxDeficitParam sysW9 "B1" 0 = 2 ∧
    maxDeficitParam sysW9 "B2" 0 = 0 := by
  have h1 := deficit_vars_sobre_B_T sysW9 rfl (by decide) "B1" (by decide) 0 (by decide)
  have h2 := deficit_vars_sobre_B_T sysW9 rfl (by decide) "B2" (by decide) 0 (by decide)
  have hsat : satisfaz sysW9 assignW9 := by with_unfolding_all decide
  refine ⟨hsat, h1.1, h1.2.2.1 assignW9 hsat, ?_, ?_⟩
  · exact h1.2.2.2.1 { bus := "B1", period := 0, max_deficit := 2, cost := 100 }
      (by decide) rfl rfl
  · exact h2.2.2.2.2 (by decide)

lemma dictGetD_cons_of_nodup {α β κ : Type} [DecidableEq κ] {key : α → κ}
    {val : α → β} {dflt : β} {d : α} {rest : List α}
    (hnotin : ∀ x ∈ rest, key x ≠ key d) (k : κ) :
    dictGetD key val dflt (d :: rest) k
      = if k = key d then val d else dictGetD key val dflt rest k := by
  unfold dictGetD dictLookup
  rw [List.reverse_cons, List.find?_append]
  by_cases hk : k = key d
  · subst hk
    have hnone : rest.reverse.find? (fun x => key x = key d) = none := by
      rw [List.find?_eq_none]
      intro x hx
      simpa using hnotin x (List.mem_reverse.1 hx)
    rw [hnone, if_pos rfl]
    simp
  · rw [if_neg hk]
    cases hfind : rest.reverse.find? (fun x => key x = k) with
    | some y => simp
    | none =>
      have hone : ([d].find? (fun x => key x = k)) = none := by
        rw [List.find?_singleton, if_neg]
        simp
        exact fun h => hk h.symm
      rw [hone]
      simp

lemma sum_ite_eq_of_nodup {κ : Type} [DecidableEq κ] {keys : List κ}
    (h : keys.Nodup) {a : κ} (ha : a ∈ keys) (c : κ → ℚ) :
    (keys.map (fun k => if k = a then c k else 0)).sum = c a := by
  induction keys with
  | nil => cases ha
  | cons x xs ih =>
    rcases List.nodup_cons.1 h with ⟨hx, hxs⟩
    rcases List.mem_cons.1 ha with rfl | hmem
    · simp only [List.map_cons, List.sum_cons, if_pos rfl]
      have hz : (xs.map (fun k => if k = a then c k else 0)).sum = 0 := by
        apply List.sum_eq_zero
        intro y hy
        rcases List.mem_map.1 hy with ⟨k, hk, rfl⟩
        rw [if_neg]
        intro hkx
        exact hx (hkx ▸ hk)
      rw [hz, add_zero]
      simp
    · simp only [List.map_cons, List.sum_cons]
      rw [if_neg, ih hxs hmem, zero_add]
      intro hxa
      exact hx (hxa.symm ▸ hmem)

lemma sum_dict_mul {κ α : Type} [DecidableEq κ]
    (cost : α → ℚ) (key : α → κ) (f : κ → ℚ) :
    ∀ (l : List α) (keys : List κ), keys.Nodup → (l.map key).Nodup →
      (∀ x ∈ l, key x ∈ keys) →
      (keys.map (fun k => f k * dictGetD key cost 0 l k)).sum
        = (l.map (fun x => f (key x) * cost x)).sum := by
  intro l
  induction l with
  | nil =>
    intro keys _ _ _
    simp [dictGetD, dictLookup]
  | cons d rest ih =>
    intro keys hknd hnd hin
    have hmapnd : (key d ∉ rest.map key) ∧ (rest.map key).Nodup := by
      have := hnd
      rw [List.map_cons, List.nodup_cons] at this
      exact this
    have hnotin : ∀ x ∈ rest, key x ≠ key d := by
      intro x hx hkeq
      exact hmapnd.1 (hkeq ▸ List.mem_map.2 ⟨x, hx, rfl⟩)
    have hrest_in : ∀ x ∈ rest, key x ∈ keys :=
      fun x hx => hin x (List.mem_cons_of_mem d hx)
    calc (keys.map (fun k => f k * dictGetD key cost 0 (d :: rest) k)).sum
        = (keys.map (fun k => f k * dictGetD key cost 0 rest k
            + (if k = key d then f k * cost d else 0))).sum := by
          refine congrArg List.sum (List.map_congr_left ?_)
          intro k hk
          rw [dictGetD_cons_of_nodup hnotin k]
          by_cases h : k = key d
          · subst h
            rw [if_pos rfl, if_pos rfl, dictGetD_eq_default hnotin]
            ring
          · rw [if_neg h, if_neg h, add_zero]
      _ = (keys.map (fun k => f k * dictGetD key cost 0 rest k)).sum
            + (keys.map (fun k => if k = key d then f k * cost d else 0)).sum := by
          rw [List.sum_map_add]
      _ = (rest.map (fun x => f (key x) * cost x)).sum + f (key d) * cost d := by
          rw [ih keys hknd hmapnd.2 hrest_in]
          congr 1
          exact sum_ite_eq_of_nodup hknd (hin d (List.mem_cons_self d rest))
            (fun k => f k * cost d)
      _ = ((d :: rest).map (fun x => f (key x) * cost x)).sum := by
          rw [List.map_cons, List.sum_cons]
          ring

lemma sum_sum_eq_sum_idxPairs {α : Type} (xs : List α) (n : Nat) (f : α × Nat → ℚ) :
    (xs.map (fun x => ((List.range n).map (fun t => f (x, t))).sum)).sum
      = ((idxPairs xs n).map f).sum := by
  unfold idxPairs
  induction xs with
  | nil => simp
  | cons x xs ih =>
    simp only [List.flatMap_cons, List.map_cons, List.sum_cons, List.map_append,
      List.sum_append, List.map_map, ih]
    rfl

lemma sum_genIds_custo (sys : FullSystem) (hg : (genIds sys).Nodup)
    (p : String → Bool) (f : String → Nat → ℚ) :
    (((genIds sys).filter p).map (fun g =>
        ((List.range (numT sys)).map (fun t => f g t * custoParam sys g)).sum)).sum
      = (((genList sys).filter (fun g => p g.id)).map (fun g =>
        ((List.range (numT sys)).map (fun t => f g.id t * g.cost)).sum)).sum := by
  unfold genIds
  rw [List.filter_map, List.map_map]
  rw [show (p ∘ (fun x : Gen => x.id)) = (fun g : Gen => p g.id) from rfl]
  refine congrArg List.sum (List.map_congr_left ?_)
  intro g hgm
  have hmem : g ∈ genList sys := List.mem_of_mem_filter hgm
  have hc : custoParam sys g.id = g.cost :=
    dictGetD_eq_of_mem (k := fun x : Gen => x.id) (v := fun x : Gen => x.cost)
      hg hmem
  simp only [Function.comp_apply, hc]

lemma penalEmissao_eq_spec (sys : FullSystem) (hg : (genIds sys).Nodup)
    (a : Assign) : penalEmissao sys a = specEmissionPenalty sys a := by
  unfold penalEmissao specEmissionPenalty genIds
  rw [List.map_map]
  refine congrArg List.sum (List.map_congr_left ?_)
  intro g hmem
  have he : emissaoParam sys g.id = g.emission :=
    dictGetD_eq_of_mem (k := fun x : Gen => x.id)
      (v := fun x : Gen => x.emission) hg hmem
  simp only [Function.comp_apply, he]

lemma custoBase_eq_spec (sys : FullSystem) (hg : (genIds sys).Nodup)
    (a : Assign) : custoBase sys a = specRealGenerationCost sys a := by
  unfold custoBase specRealGenerationCost
  exact sum_genIds_custo sys hg _ (fun g t => a.P g t)

lemma deficitVarsExist_true {sys : FullSystem} (hd : sys.config.deficit = true)
    (hB : busIds sys ≠ []) (hT : 0 < numT sys) : deficitVarsExist sys = true := by
  obtain ⟨b, hb⟩ := List.exists_mem_of_ne_nil _ hB
  have hvar : VarDecl.Deficit b 0 ∈ variaveis sys := by
    unfold variaveis aplicarDeficitVars
    rw [if_pos hd]
    exact List.mem_append.2 (Or.inr
      (List.mem_map.2 ⟨(b, 0), mem_idxPairs.2 ⟨hb, hT⟩, rfl⟩))
  unfold deficitVarsExist
  rw [List.any_eq_true]
  exact ⟨_, hvar, rfl⟩

lemma deficitVarsExist_false {sys : FullSystem} (hd : sys.config.deficit = false)
    (hde : sys.deficits = []) : deficitVarsExist sys = false := by
  unfold deficitVarsExist
  rw [List.any_eq_false]
  intro v hv
  match v with
  | VarDecl.P _ _ => simp
  | VarDecl.F _ _ => simp
  | VarDecl.theta _ _ => simp
  | VarDecl.Deficit b t => exact absurd hv (deficit_var_not_mem_variaveis hd hde b t)

/-- C4.  The minimised objective equals
`delta · RealGenerationCost + (1 − delta) · EmissionCostCoefficient ·
EmissionPenalty + DeficitCost` when emission modelling is enabled, and plain
`RealGenerationCost + DeficitCost` when it is disabled, where the three
aggregates are taken literally from the spec: real-generation cost over
non-fictitious generators, emission penalty over all generators, and deficit
cost either over the Deficit entities (when Deficit variables exist) or over
the fictitious generators (when they do not). -/
theorem objetivo_compositor (sys : FullSystem) (a : Assign)
    (hg : (genIds sys).Nodup) (hnb : (busIds sys).Nodup)
    (hnd : (deficitPairs sys).Nodup)
    (hin : ∀ d ∈ sys.deficits, d.bus ∈ busIds sys ∧ d.period < numT sys)
    (hcoh : sys.config.usar_deficit = sys.config.deficit)
    (hload : sys.config.usar_deficit = false → sys.deficits = [])
    (hB : busIds sys ≠ []) (hT : 0 < numT sys) :
    objetivo sys a =
      (if sys.config.emissao then
         sys.config.delta * specRealGenerationCost sys a
           + (1 - sys.config.delta) * sys.config.custo_emissao
             * specEmissionPenalty sys a
       else specRealGenerationCost sys a)
      + specDeficitCost sys a := by
  unfold objetivo
  congr 1
  · unfold fobEmissao
    by_cases he : sys.config.emissao
    · rw [if_pos he, if_pos he, custoBase_eq_spec sys hg a,
        penalEmissao_eq_spec sys hg a]
    · rw [if_neg he, if_neg he, custoBase_eq_spec sys hg a]
  · unfold custoDeficitExpr specDeficitCost
    by_cases hd : sys.config.deficit
    · rw [if_pos hd, deficitVarsExist_true hd hB hT, if_pos rfl]
      have hrw := sum_sum_eq_sum_idxPairs (busIds sys) (numT sys)
        (fun p => a.Deficit p.1 p.2 * costDeficitParam sys p.1 p.2)
      rw [hrw]
      exact sum_dict_mul (fun d : Deficit => d.cost)
        (fun d : Deficit => (d.bus, d.period)) (fun p => a.Deficit p.1 p.2)
        sys.deficits (idxPairs (busIds sys) (numT sys))
        (idxPairs_nodup hnb (numT sys)) hnd
        (fun d hdm => mem_idxPairs.2 ⟨(hin d hdm).1, (hin d hdm).2⟩)
    · have hd' : sys.config.deficit = false := by
        cases h : sys.config.deficit
        · rfl
        · exact absurd h hd
      have hde : sys.deficits = [] := hload (hcoh.trans hd')
      rw [if_neg hd, deficitVarsExist_false hd' hde]
      simp only [Bool.false_eq_true, if_false]
      exact sum_genIds_custo sys hg _ (fun g t => a.P g t)

/-- Concrete emission-and-deficit system for the C4 witness. -/
def sysW4 : FullSystem where
  buses := [{ id := "B1",
              generators := [{ id := "GT1", bus := "B1", gmax := 10, cost := 5, emission := 3 }] }]
  lines := []
  load_profile := [[{ id := "C1", bus := "B1", demand := 2 }]]
  deficits := [{ bus := "B1", period := 0, max_deficit := 2, cost := 100 }]
  config := { deficit := true, usar_deficit := true, emissao := true,
              delta := 1/2, custo_emissao := 7 }

/-- A concrete assignment for `sysW4`. -/
def assignW4 : Assign where
  P := fun g _ => if g = "GT1" then 1 else 0
  F := fun _ _ => 0
  Deficit := fun b _ => if b = "B1" then 1 else 0
  theta := fun _ _ => 0

/-- Witness for C4 at `sysW4`/`assignW4`: the assembled objective evaluates to
the spec formula `delta·RGC + (1−delta)·ce·EP + DC = 1/2·5 + 1/2·7·3 + 100 = 113`. -/
theorem objetivo_compositor_witness :
    objetivo sysW4 assignW4 =
      sysW4.config.delta * specRealGenerationCost sysW4 assignW4
        + (1 - sysW4.config.delta) * sysW4.config.custo_emissao
          * specEmissionPenalty sysW4 assignW4
        + specDeficitCost sysW4 assignW4 ∧
    objetivo sysW4 assignW4 = 113 := by
  constructor
  · have h := objetivo_compositor sysW4 assignW4 (by decide) (by decide) (by decide)
      (by with_unfolding_all decide) rfl (by intro h; cases h) (by decide) (by decide)
    rw [h, if_pos (show sysW4.config.emissao = true from rfl)]
  · with_unfolding_all decide

/-- Concrete two-bus, one-line, one-period transport-mode system used as a
witness for C1. -/
def sysW1 : FullSystem where
  buses := [{ id := "B1", generators := [{ id := "GT1", bus := "B1", gmax := 10, cost := 5 }] },
            { id := "B2", generators := [{ id := "GF2", bus := "B2", gmax := 1000, cost := 1000000 }] }]
  lines := [{ id := "L0", from_bus := "B1", to_bus := "B2", limit := 5, susceptance := 1 }]
  load_profile := [[{ id := "C1", bus := "B2", demand := 2 }]]
  config := { transporte := true }

/-- A feasible dispatch for `sysW1`. -/
def assignW1 : Assign where
  P := fun g _ => if g = "GT1" then 2 else 0
  F := fun l _ => if l = "L0" then 2 else 0
  Deficit := fun _ _ => 0
  theta := fun _ _ => 0

/-- Witness for C1: the hypotheses and conclusion of
`balanco_unico_por_barra` hold on the concrete system `sysW1`. -/
theorem balanco_unico_por_barra_witness :
    sysW1.config.transporte = true ∧ (busIds sysW1).Nodup ∧
    satisfaz sysW1 assignW1 ∧
    (restricoes sysW1).count (MC.balanco "B2" 0) = 1 ∧
    geracaoBarra sysW1 assignW1 "B2" 0 + entrada sysW1 assignW1 "B2" 0
        - saida sysW1 assignW1 "B2" 0 + deficitTermo sysW1 assignW1 "B2" 0
      = demanda sysW1 "B2" 0 :=
  ⟨rfl, by decide, by with_unfolding_all decide,
    (balanco_unico_por_barra sysW1 rfl (by decide)).1 "B2" (by decide) 0 (by decide),
    ((balanco_unico_por_barra sysW1 rfl (by decide)).2.2.2 assignW1
      (by with_unfolding_all decide) "B2" (by decide) 0 (by decide)).1⟩

/-!  The per-line loss computation and the demand redistribution. -/

lemma bump_apply (m : LossMap) (kk k : String × Nat) (v : ℚ) :
    bump m kk v k = m k + (if k = kk then v else 0) := by
  unfold bump
  by_cases h : k = kk
  · subst h; rw [if_pos rfl, if_pos rfl]
  · rw [if_neg h, if_neg h, add_zero]

lemma perdaFold_fst (sys : FullSystem) (a : Assign) :
    ∀ (steps : List (Line × Nat)) (st : LossMap × ℚ) (k : String × Nat),
      (steps.foldl (perdaStep sys a) st).1 k
        = st.1 k + (steps.map (fun p =>
            (if k = (p.1.from_bus, p.2) then 1/2 * perdaLinhaVal sys a p.1 p.2 else 0)
            + (if k = (p.1.to_bus, p.2) then 1/2 * perdaLinhaVal sys a p.1 p.2 else 0))).sum := by
  intro steps
  induction steps with
  | nil => intro st k; simp
  | cons p rest ih =>
    intro st k
    rw [List.foldl_cons, ih, List.map_cons, List.sum_cons]
    show (bump (bump st.1 (p.1.from_bus, p.2) (1/2 * perdaLinhaVal sys a p.1 p.2))
        (p.1.to_bus, p.2) (1/2 * perdaLinhaVal sys a p.1 p.2)) k + _ = _
    rw [bump_apply, bump_apply]
    ring

lemma perdaFold_snd (sys : FullSystem) (a : Assign) :
    ∀ (steps : List (Line × Nat)) (st : LossMap × ℚ),
      (steps.foldl (perdaStep sys a) st).2
        = st.2 + (steps.map (fun p => perdaLinhaVal sys a p.1 p.2)).sum := by
  intro steps
  induction steps with
  | nil => intro st; simp
  | cons p rest ih =>
    intro st
    rw [List.foldl_cons, ih, List.map_cons, List.sum_cons]
    show st.2 + perdaLinhaVal sys a p.1 p.2 + _ = _
    ring

lemma sum_range_pair_if {n t : Nat} (ht : t < n) (s b : String) (w : Nat → ℚ) :
    ((List.range n).map (fun u => if (b, t) = (s, u) then w u else 0)).sum
      = if s = b then w t else 0 := by
  by_cases hs : s = b
  · subst hs
    rw [if_pos rfl]
    have hcong : ∀ u ∈ List.range n,
        (if (s, t) = (s, u) then w u else 0) = (if u = t then w u else 0) := by
      intro u _
      by_cases hu : u = t
      · subst hu; simp
      · rw [if_neg, if_neg hu]
        intro hp
        exact hu (congrArg Prod.snd hp).symm
    rw [List.map_congr_left hcong]
    exact sum_ite_eq_of_nodup (List.nodup_range n) (List.mem_range.2 ht) w
  · rw [if_neg hs]
    apply List.sum_eq_zero
    intro x hx
    rcases List.mem_map.1 hx with ⟨u, _, rfl⟩
    rw [if_neg]
    intro hp
    exact hs (congrArg Prod.fst hp).symm

lemma sum_idxPairs_if (lines : List Line) {n t : Nat} (ht : t < n)
    (side : Line → String) (b : String) (v : Line → Nat → ℚ) :
    ((idxPairs lines n).map (fun p =>
        if (b, t) = (side p.1, p.2) then v p.1 p.2 else 0)).sum
      = ((lines.filter (fun l => side l = b)).map (fun l => v l t)).sum := by
  induction lines with
  | nil => simp [idxPairs]
  | cons l rest ih =>
    rw [show idxPairs (l :: rest) n
        = (List.range n).map (fun u => (l, u)) ++ idxPairs rest n from rfl]
    rw [List.map_append, List.sum_append, ih, List.map_map]
    have hinner : ((List.range n).map ((fun p : Line × Nat =>
        if (b, t) = (side p.1, p.2) then v p.1 p.2 else 0) ∘ (fun u => (l, u)))).sum
        = if side l = b then v l t else 0 := by
      rw [show ((fun p : Line × Nat =>
          if (b, t) = (side p.1, p.2) then v p.1 p.2 else 0) ∘ (fun u => (l, u)))
          = (fun u => if (b, t) = (side l, u) then v l u else 0) from rfl]
      exact sum_range_pair_if ht (side l) b (v l)
    rw [hinner]
    by_cases hs : side l = b
    · rw [if_pos hs, List.filter_cons_of_pos (by simpa using hs),
        List.map_cons, List.sum_cons]
    · rw [if_neg hs, List.filter_cons_of_neg (by simpa using hs), zero_add]

lemma calcularPerdas_fst (sys : FullSystem) (a : Assign) (b : String)
    {t : Nat} (ht : t < numT sys) :
    (calcularPerdas sys a).1 (b, t)
      = ((sys.lines.filter (fun l => l.from_bus = b)).map
          (fun l => 1/2 * perdaLinhaVal sys a l t)).sum
        + ((sys.lines.filter (fun l => l.to_bus = b)).map
          (fun l => 1/2 * perdaLinhaVal sys a l t)).sum := by
  unfold calcularPerdas
  rw [perdaFold_fst]
  have h0 : (inicializarPerdas, (0 : ℚ)).1 (b, t) = 0 := rfl
  rw [h0, zero_add, List.sum_map_add]
  rw [sum_idxPairs_if sys.lines ht (fun l => l.from_bus) b
      (fun l u => 1/2 * perdaLinhaVal sys a l u),
    sum_idxPairs_if sys.lines ht (fun l => l.to_bus) b
      (fun l u => 1/2 * perdaLinhaVal sys a l u)]

lemma calcularPerdas_snd (sys : FullSystem) (a : Assign) :
    (calcularPerdas sys a).2
      = ((idxPairs sys.lines (numT sys)).map
          (fun p => perdaLinhaVal sys a p.1 p.2)).sum := by
  unfold calcularPerdas
  rw [perdaFold_snd]
  exact zero_add _

/-- The effective angle difference of the loss formula, as the spec words it:
the literal angle difference in DC mode, `flow/susceptance` (guarded against
zero susceptance) in transport mode. -/
def effDiff (sys : FullSystem) (a : Assign) (l : Line) (t : Nat) : ℚ :=
  if sys.config.fluxo_dc then a.theta l.from_bus t - a.theta l.to_bus t
  else if l.susceptance ≠ 0 then a.F l.id t / l.susceptance else 0

lemma perdaLinhaVal_eq_effDiff {sys : FullSystem} (hnl : (lineIds sys).Nodup)
    (a : Assign) {l : Line} (hl : l ∈ sys.lines) (t : Nat) :
    perdaLinhaVal sys a l t = l.conductance * effDiff sys a l t ^ 2 := by
  have hs : susceptanceParam sys l.id = l.susceptance :=
    dictGetD_eq_of_mem (k := fun x : Line => x.id)
      (v := fun x : Line => x.susceptance) hnl hl
  have hg : conductanceParam sys l.id = l.conductance :=
    dictGetD_eq_of_mem (k := fun x : Line => x.id)
      (v := fun x : Line => x.conductance) hnl hl
  unfold perdaLinhaVal effDiff
  by_cases hdc : sys.config.fluxo_dc
  · rw [if_pos hdc, if_pos hdc, hg]
  · rw [if_neg hdc, if_neg hdc, hg, hs]
    by_cases hz : l.susceptance ≠ 0
    · rw [if_pos hz, if_pos hz]
    · rw [if_neg hz, if_neg hz]
      ring

lemma numT_atualizar (sys : FullSystem) (base perdas : LossMap) :
    numT (atualizarCargasComPerdas sys base perdas) = numT sys := by
  unfold numT atualizarCargasComPerdas
  simp

lemma numT_lossS (oracle : FullSystem → Assign) (sys0 : FullSystem) :
    ∀ k, numT (lossS oracle sys0 k) = numT sys0 := by
  intro k
  induction k with
  | zero => rfl
  | succ k ih =>
    show numT (atualizarCargasComPerdas _ _ _) = _
    rw [numT_atualizar]
    exact ih

lemma loadsAt_eq_nil {s : FullSystem} {t : Nat} (ht : ¬ t < numT s) :
    loadsAt s t = [] := by
  unfold loadsAt
  rw [List.getD_eq_getElem?_getD, List.getElem?_eq_none (by
    unfold numT at ht; omega)]
  rfl

lemma loadsAt_atualizar (sys : FullSystem) (base perdas : LossMap) (t : Nat)
    (ht : t < numT sys) :
    loadsAt (atualizarCargasComPerdas sys base perdas) t
      = (loadsAt sys t).map (fun c =>
          { c with demand := base (c.bus, t) + perdas (c.bus, t) }) := by
  unfold loadsAt atualizarCargasComPerdas
  simp only [List.getD_eq_getElem?_getD, List.getElem?_mapIdx]
  rw [List.getElem?_eq_getElem (show t < sys.load_profile.length from ht)]
  rfl

lemma demanda_atualizar (sys : FullSystem) (base perdas : LossMap) (b : String)
    {t : Nat} (ht : t < numT sys)
    (hex : ∃ c ∈ loadsAt sys t, c.bus = b) :
    demanda (atualizarCargasComPerdas sys base perdas) b t
      = base (b, t) + perdas (b, t) := by
  unfold demanda dictGetD dictLookup
  rw [loadsAt_atualizar sys base perdas t ht]
  rw [← List.map_reverse, List.find?_map]
  obtain ⟨c, hc, hcb⟩ := hex
  have hsome : ∃ y, (loadsAt sys t).reverse.find?
      (fun z : Load => z.bus = b) = some y := by
    have hiss : ((loadsAt sys t).reverse.find?
        (fun z : Load => z.bus = b)).isSome := by
      rw [List.find?_isSome]
      exact ⟨c, List.mem_reverse.2 hc, by simpa using hcb⟩
    exact Option.isSome_iff_exists.1 hiss
  obtain ⟨y, hy⟩ := hsome
  rw [show ((fun x : Load => decide (x.bus = b)) ∘ (fun c : Load =>
      { c with demand := base (c.bus, t) + perdas (c.bus, t) }))
      = (fun z : Load => decide (z.bus = b)) from rfl]
  rw [hy]
  have hyb : y.bus = b := by simpa using List.find?_some hy
  simp [hyb]

lemma loadsAt_bus_lossS (oracle : FullSystem → Assign) (sys0 : FullSystem) :
    ∀ (k t : Nat), (loadsAt (lossS oracle sys0 k) t).map (fun c => c.bus)
      = (loadsAt sys0 t).map (fun c => c.bus) := by
  intro k
  induction k with
  | zero => intro t; rfl
  | succ k ih =>
    intro t
    show (loadsAt (atualizarCargasComPerdas (lossS oracle sys0 k) _ _) t).map _ = _
    by_cases ht : t < numT (lossS oracle sys0 k)
    · rw [loadsAt_atualizar _ _ _ t ht, List.map_map]
      exact ih t
    · rw [loadsAt_eq_nil (s := atualizarCargasComPerdas _ _ _) (by
        rw [numT_atualizar]; exact ht),
        loadsAt_eq_nil (s := sys0) (by rw [numT_lossS] at ht; exact ht)]

/-- C6.  Per cycle of the loss engine: the per-(bus, period) loss dictionary
gives each bus half the loss `conductance · (effective_angle_difference)²` of
every incident line (the effective difference being `flow/susceptance` in
transport mode and the literal angle difference in DC mode), the total is the
sum over all lines and periods, the demand update sets every bus/period demand
to `base demand + accumulated loss`, and across iterations the base demand is
the one captured from the original system before the first pass — losses are
re-added to the original demand, never compounded. -/
theorem perdas_calculo_e_redistribuicao (sys : FullSystem) (a : Assign)
    (oracle : FullSystem → Assign) (sys0 : FullSystem) (base perdas : LossMap)
    (b : String) (t : Nat) (k : Nat)
    (hnl : (lineIds sys).Nodup) (ht : t < numT sys) :
    ((calcularPerdas sys a).1 (b, t)
        = ((sys.lines.filter (fun l => l.from_bus = b)).map
            (fun l => 1/2 * (l.conductance * effDiff sys a l t ^ 2))).sum
          + ((sys.lines.filter (fun l => l.to_bus = b)).map
            (fun l => 1/2 * (l.conductance * effDiff sys a l t ^ 2))).sum) ∧
    ((calcularPerdas sys a).2
        = ((idxPairs sys.lines (numT sys)).map
            (fun p => p.1.conductance * effDiff sys a p.1 p.2 ^ 2)).sum) ∧
    ((∃ c ∈ loadsAt sys t, c.bus = b) →
      demanda (atualizarCargasComPerdas sys base perdas) b t
        = base (b, t) + perdas (b, t)) ∧
    (t < numT sys0 → (∃ c ∈ loadsAt sys0 t, c.bus = b) →
      demanda (lossS oracle sys0 (k + 1)) b t
        = armazenarCargaBase sys0 (b, t) + lossL oracle sys0 k (b, t)) := by
  refine ⟨?_, ?_, ?_, ?_⟩
  · rw [calcularPerdas_fst sys a b ht]
    congr 1 <;>
      · refine congrArg List.sum (List.map_congr_left ?_)
        intro l hl
        rw [perdaLinhaVal_eq_effDiff hnl a (List.mem_of_mem_filter hl) t]
  · rw [calcularPerdas_snd sys a]
    refine congrArg List.sum (List.map_congr_left ?_)
    intro p hp
    have hpl : p.1 ∈ sys.lines := by
      rcases List.mem_flatMap.1 hp with ⟨l, hl, hmem⟩
      rcases List.mem_map.1 hmem with ⟨u, _, rfl⟩
      exact hl
    rw [perdaLinhaVal_eq_effDiff hnl a hpl p.2]
  · intro hex
    exact demanda_atualizar sys base perdas b ht hex
  · intro ht0 hex0
    have ht1 : t < numT (lossS oracle sys0 k) := by
      rw [numT_lossS]; exact ht0
    have hex1 : ∃ c ∈ loadsAt (lossS oracle sys0 k) t, c.bus = b := by
      obtain ⟨c, hc, hcb⟩ := hex0
      have hbin : b ∈ (loadsAt (lossS oracle sys0 k) t).map (fun c => c.bus) := by
        rw [loadsAt_bus_lossS]
        exact List.mem_map.2 ⟨c, hc, hcb⟩
      rcases List.mem_map.1 hbin with ⟨c', hc', hcb'⟩
      exact ⟨c', hc', hcb'⟩
    show demanda (atualizarCargasComPerdas (lossS oracle sys0 k)
        (armazenarCargaBase sys0) (lossL oracle sys0 k)) b t = _
    exact demanda_atualizar _ _ _ b ht1 hex1

/-- C10.  In transport mode (the DC flag off) the loss of a line whose
susceptance parameter is zero is exactly `0` for every period: the
`flow/susceptance` division is guarded by `if b != 0` and is never performed
with a zero divisor. -/
theorem perda_linha_susceptancia_zero (sys : FullSystem) (a : Assign)
    (l : Line) (t : Nat) (hdc : sys.config.fluxo_dc = false)
    (hb : susceptanceParam sys l.id = 0) :
    perdaLinhaVal sys a l t = 0 := by
  unfold perdaLinhaVal
  rw [hdc]
  simp [hb]

/-!  Analysis of the loss-convergence loop. -/

/-- Index of the first pass (counting from `j`, with `f` passes of budget left)
whose `Δ` falls below `epsilon`. -/
def convIdx (oracle : FullSystem → Assign) (sys0 : FullSystem) (eps : ℚ) :
    Nat → Nat → Option Nat
  | _, 0 => none
  | j, f + 1 =>
    if lossDelta oracle sys0 j < eps then some j
    else convIdx oracle sys0 eps (j + 1) f

lemma lossIter_succ (oracle : FullSystem → Assign) (eps : ℚ)
    (keys : List (String × Nat)) (base : LossMap) (f : Nat)
    (sys : FullSystem) (prev : LossMap) :
    lossIter oracle eps keys base (f + 1) sys prev =
      (if calcularDiferencaPerdas keys prev (calcularPerdas sys (oracle sys)).1 < eps
       then Except.ok
         (atualizarCargasComPerdas sys base (calcularPerdas sys (oracle sys)).1,
          (calcularPerdas sys (oracle sys)).1, (calcularPerdas sys (oracle sys)).2)
       else lossIter oracle eps keys base f
         (atualizarCargasComPerdas sys base (calcularPerdas sys (oracle sys)).1)
         (calcularPerdas sys (oracle sys)).1) := rfl

lemma convIdx_succ (oracle : FullSystem → Assign) (sys0 : FullSystem) (eps : ℚ)
    (j f : Nat) :
    convIdx oracle sys0 eps j (f + 1) =
      (if lossDelta oracle sys0 j < eps then some j
       else convIdx oracle sys0 eps (j + 1) f) := rfl

lemma lossIter_eq_seq (oracle : FullSystem → Assign) (sys0 : FullSystem)
    (eps : ℚ) : ∀ (f j : Nat),
    lossIter oracle eps (lossKeys sys0) (armazenarCargaBase sys0) f
        (lossS oracle sys0 j) (lossPrev oracle sys0 j)
      = match convIdx oracle sys0 eps j f with
        | some n => Except.ok (lossS oracle sys0 (n + 1), lossL oracle sys0 n,
            lossTot oracle sys0 n)
        | none => Except.error nonConvMsg := by
  intro f
  induction f with
  | zero => intro j; rfl
  | succ f ih =>
    intro j
    rw [lossIter_succ, convIdx_succ]
    by_cases hc : lossDelta oracle sys0 j < eps
    · rw [if_pos (show calcularDiferencaPerdas (lossKeys sys0)
          (lossPrev oracle sys0 j)
          (calcularPerdas (lossS oracle sys0 j) (oracle (lossS oracle sys0 j))).1
            < eps from hc),
        if_pos hc]
      rfl
    · rw [if_neg (show ¬ calcularDiferencaPerdas (lossKeys sys0)
          (lossPrev oracle sys0 j)
          (calcularPerdas (lossS oracle sys0 j) (oracle (lossS oracle sys0 j))).1
            < eps from hc),
        if_neg hc]
      exact ih (j + 1)

lemma aplicarPerdas_eq_seq (oracle : FullSystem → Assign) (sys : FullSystem)
    (maxIter : Nat) (eps : ℚ) :
    aplicarPerdasIterativamente oracle sys maxIter eps =
      match convIdx oracle sys eps 0 maxIter with
      | some n => Except.ok (lossS oracle sys (n + 1), lossL oracle sys n,
          lossTot oracle sys n, oracle (lossS oracle sys (n + 1)))
      | none => Except.error nonConvMsg := by
  unfold aplicarPerdasIterativamente
  have h := lossIter_eq_seq oracle sys eps maxIter 0
  rw [show lossS oracle sys 0 = sys from rfl,
    show lossPrev oracle sys 0 = inicializarPerdas from rfl] at h
  rw [h]
  cases convIdx oracle sys eps 0 maxIter <;> rfl

lemma convIdx_eq_some (oracle : FullSystem → Assign) (sys0 : FullSystem)
    (eps : ℚ) : ∀ (f j n : Nat),
    convIdx oracle sys0 eps j f = some n ↔
      (j ≤ n ∧ n < j + f ∧ lossDelta oracle sys0 n < eps ∧
        ∀ m, j ≤ m → m < n → ¬ lossDelta oracle sys0 m < eps) := by
  intro f
  induction f with
  | zero =>
    intro j n
    constructor
    · intro h; exact absurd h (by simp [convIdx])
    · rintro ⟨h1, h2, -⟩; omega
  | succ f ih =>
    intro j n
    rw [convIdx_succ]
    by_cases hc : lossDelta oracle sys0 j < eps
    · rw [if_pos hc]
      constructor
      · intro h
        have hn : j = n := by injection h
        subst hn
        exact ⟨le_refl _, by omega, hc, fun m hm1 hm2 => absurd hm1 (by omega)⟩
      · rintro ⟨h1, _, _, h4⟩
        rcases Nat.lt_or_ge j n with hlt | hge
        · exact absurd hc (h4 j (le_refl j) hlt)
        · have : n = j := le_antisymm hge h1
          rw [this]
    · rw [if_neg hc, ih (j + 1) n]
      constructor
      · rintro ⟨h1, h2, h3, h4⟩
        refine ⟨by omega, by omega, h3, fun m hm1 hm2 => ?_⟩
        rcases Nat.eq_or_lt_of_le hm1 with heq | hlt
        · rw [← heq]; exact hc
        · exact h4 m hlt hm2
      · rintro ⟨h1, h2, h3, h4⟩
        have hne : j + 1 ≤ n := by
          rcases Nat.eq_or_lt_of_le h1 with heq | hlt
          · exact absurd (heq.symm ▸ h3) hc
          · omega
        exact ⟨hne, by omega, h3, fun m hm1 hm2 => h4 m (by omega) hm2⟩

lemma convIdx_eq_none (oracle : FullSystem → Assign) (sys0 : FullSystem)
    (eps : ℚ) : ∀ (f j : Nat),
    convIdx oracle sys0 eps j f = none ↔
      ∀ n, j ≤ n → n < j + f → ¬ lossDelta oracle sys0 n < eps := by
  intro f
  induction f with
  | zero =>
    intro j
    constructor
    · intro _ n h1 h2 _; omega
    · intro _; rfl
  | succ f ih =>
    intro j
    rw [convIdx_succ]
    by_cases hc : lossDelta oracle sys0 j < eps
    · rw [if_pos hc]
      constructor
      · intro h; exact absurd h (by simp)
      · intro h; exact absurd hc (h j (le_refl j) (by omega))
    · rw [if_neg hc, ih (j + 1)]
      constructor
      · intro h n h1 h2
        rcases Nat.eq_or_lt_of_le h1 with heq | hlt
        · rw [← heq]; exact hc
        · exact h n hlt (by omega)
      · intro h n h1 h2
        exact h n (by omega) (by omega)

/-- C5.  Characterisation of the loss-convergence engine: it runs at most
`max_iterations` (default 40) passes; in each pass it solves the current
model, recomputes the per-(bus, period) losses, forms
`Δ = Σ |loss_new − loss_prev|`, and declares convergence exactly when
`Δ < epsilon` (default `1e-16`), otherwise it carries the losses forward and
rebuilds a fresh instance from the demand-updated system; on convergence it
returns the rebuilt (converged-demand) system, the final losses and total,
and the solution of one final solve on that rebuilt system. -/
theorem perdas_iterativas_caracterizadas (oracle : FullSystem → Assign)
    (sys : FullSystem) (maxIter : Nat) (eps : ℚ) :
    (aplicarPerdasIterativamente oracle sys
      = aplicarPerdasIterativamente oracle sys 40 (1 / 10 ^ 16)) ∧
    (∀ r, aplicarPerdasIterativamente oracle sys maxIter eps = Except.ok r ↔
      ∃ n, n < maxIter ∧ lossDelta oracle sys n < eps ∧
        (∀ m, m < n → ¬ lossDelta oracle sys m < eps) ∧
        r = (lossS oracle sys (n + 1), lossL oracle sys n, lossTot oracle sys n,
             oracle (lossS oracle sys (n + 1)))) ∧
    (aplicarPerdasIterativamente oracle sys maxIter eps = Except.error nonConvMsg ↔
      ∀ n, n < maxIter → ¬ lossDelta oracle sys n < eps) := by
  refine ⟨rfl, ?_, ?_⟩
  · intro r
    rw [aplicarPerdas_eq_seq]
    constructor
    · intro h
      cases hidx : convIdx oracle sys eps 0 maxIter with
      | none => rw [hidx] at h; exact absurd h (by simp)
      | some n =>
        rw [hidx] at h
        have hch := (convIdx_eq_some oracle sys eps maxIter 0 n).1 hidx
        refine ⟨n, by omega, hch.2.2.1, fun m hm => hch.2.2.2 m (by omega) hm, ?_⟩
        injection h with h
        exact h.symm
    · rintro ⟨n, h1, h2, h3, h4⟩
      have hidx : convIdx oracle sys eps 0 maxIter = some n :=
        (convIdx_eq_some oracle sys eps maxIter 0 n).2
          ⟨by omega, by omega, h2, fun m _ hm => h3 m hm⟩
      rw [hidx, h4]
  · rw [aplicarPerdas_eq_seq]
    constructor
    · intro h
      cases hidx : convIdx oracle sys eps 0 maxIter with
      | none =>
        intro n h1
        exact (convIdx_eq_none oracle sys eps maxIter 0).1 hidx n (by omega) (by omega)
      | some n => rw [hidx] at h; exact absurd h (by simp)
    · intro h
      have hidx : convIdx oracle sys eps 0 maxIter = none :=
        (convIdx_eq_none oracle sys eps maxIter 0).2
          (fun n _ h2 => h n (by omega))
      rw [hidx]

/-- C7.  If every one of the `max_iterations` passes fails the `Δ < epsilon`
test, the engine raises the non-convergence `RuntimeError` — fatal to the
scenario: nothing retries with a relaxed tolerance and no approximate `ok`
result is returned. -/
theorem perdas_nao_convergencia_fatal (oracle : FullSystem → Assign)
    (sys : FullSystem) (maxIter : Nat) (eps : ℚ)
    (h : ∀ n, n < maxIter → ¬ lossDelta oracle sys n < eps) :
    aplicarPerdasIterativamente oracle sys maxIter eps
      = Except.error nonConvMsg ∧
    ∀ r, aplicarPerdasIterativamente oracle sys maxIter eps ≠ Except.ok r := by
  have hidx : convIdx oracle sys eps 0 maxIter = none :=
    (convIdx_eq_none oracle sys eps maxIter 0).2 (fun n _ h2 => h n (by omega))
  constructor
  · rw [aplicarPerdas_eq_seq, hidx]
  · intro r hok
    rw [aplicarPerdas_eq_seq, hidx] at hok
    exact absurd hok (by simp)

/-- Loss-mode system with one line of unit conductance and susceptance. -/
def sysW5 : FullSystem where
  buses := [{ id := "B1", generators := [{ id := "GT1", bus := "B1", gmax := 10, cost := 5 }] },
            { id := "B2", generators := [] }]
  lines := [{ id := "L0", from_bus := "B1", to_bus := "B2", limit := 10,
              susceptance := 1, conductance := 1 }]
  load_profile := [[{ id := "C1", bus := "B2", demand := 2 }]]
  config := { transporte := true, perdas := true, considerar_perdas := true }

/-- A constant solver oracle (flow 1 on every line): its losses stabilise
after the first pass. -/
def oracleW5 : FullSystem → Assign := fun _ =>
  { P := fun _ _ => 0
    F := fun _ _ => 1
    Deficit := fun _ _ => 0
    theta := fun _ _ => 0 }

/-- Witness for C5: on `sysW5` with the constant oracle the engine converges
at pass `n = 1` (Δ₀ = 1 ≥ ε, Δ₁ = 0 < ε) and returns the demand-updated
system, the pass-1 losses with total `1`, and one final solve on the rebuilt
system. -/
theorem perdas_iterativas_caracterizadas_witness :
    aplicarPerdasIterativamente oracleW5 sysW5 40 (1 / 10 ^ 16)
      = Except.ok (lossS oracleW5 sysW5 2, lossL oracleW5 sysW5 1,
          lossTot oracleW5 sysW5 1, oracleW5 (lossS oracleW5 sysW5 2)) ∧
    lossTot oracleW5 sysW5 1 = 1 ∧
    lossL oracleW5 sysW5 1 ("B1", 0) = 1 / 2 :=
  ⟨((perdas_iterativas_caracterizadas oracleW5 sysW5 40 (1 / 10 ^ 16)).2.1 _).2
    ⟨1, by decide, by with_unfolding_all decide, by with_unfolding_all decide, rfl⟩,
   by with_unfolding_all decide, by with_unfolding_all decide⟩

/-- Loss-mode system whose demand-dependent oracle makes the losses oscillate
forever. -/
def sysW7 : FullSystem where
  buses := [{ id := "B1", generators := [{ id := "GT1", bus := "B1", gmax := 10, cost := 5 }] },
            { id := "B2", generators := [] }]
  lines := [{ id := "L0", from_bus := "B1", to_bus := "B2", limit := 10,
              susceptance := 1, conductance := 1 }]
  load_profile := [[{ id := "C1", bus := "B1", demand := 2 }]]
  config := { transporte := true, perdas := true, considerar_perdas := true }

/-- An oracle whose flow flips with the current demand at bus `B1`, producing
loss estimates that alternate between `1/2` and `2` per bus and never
stabilise. -/
def oracleW7 : FullSystem → Assign := fun sys =>
  { P := fun _ _ => 0
    F := fun _ _ =>
      if demanda sys "B1" 0 = 2 then 1
      else if demanda sys "B1" 0 = 5 / 2 then 2 else 1
    Deficit := fun _ _ => 0
    theta := fun _ _ => 0 }

/-- Witness for C7: on `sysW7` with the oscillating oracle every one of the
40 passes has `Δ ≥ ε`, and the engine returns the non-convergence error. -/
theorem perdas_nao_convergencia_fatal_witness :
    (∀ n, n < 40 → ¬ lossDelta oracleW7 sysW7 n < 1 / 10 ^ 16) ∧
    aplicarPerdasIterativamente oracleW7 sysW7 40 (1 / 10 ^ 16)
      = Except.error nonConvMsg :=
  ⟨by with_unfolding_all decide,
   (perdas_nao_convergencia_fatal oracleW7 sysW7 40 (1 / 10 ^ 16)
     (by with_unfolding_all decide)).1⟩

/-- An assignment with flow 2 on the single line of `sysW5`. -/
def assignW6 : Assign where
  P := fun _ _ => 0
  F := fun _ _ => 2
  Deficit := fun _ _ => 0
  theta := fun _ _ => 0

/-- A constant solver oracle with flow 2. -/
def oracleW6 : FullSystem → Assign := fun _ => assignW6

/-- Witness for C6 on `sysW5` with flow 2: the line loss is
`1 · (2/1)² = 4`, half of it (`2`) lands on each endpoint bus, and after one
pass the demand at `B2` is the base demand plus the accumulated loss,
`2 + 2 = 4`. -/
theorem perdas_calculo_e_redistribuicao_witness :
    (calcularPerdas sysW5 assignW6).1 ("B1", 0) = 2 ∧
    (calcularPerdas sysW5 assignW6).1 ("B1", 0)
      = ((sysW5.lines.filter (fun l => l.from_bus = "B1")).map
          (fun l => 1/2 * (l.conductance * effDiff sysW5 assignW6 l 0 ^ 2))).sum
        + ((sysW5.lines.filter (fun l => l.to_bus = "B1")).map
          (fun l => 1/2 * (l.conductance * effDiff sysW5 assignW6 l 0 ^ 2))).sum ∧
    demanda (lossS oracleW6 sysW5 1) "B2" 0
      = armazenarCargaBase sysW5 ("B2", 0) + lossL oracleW6 sysW5 0 ("B2", 0) ∧
    demanda (lossS oracleW6 sysW5 1) "B2" 0 = 4 :=
  ⟨by with_unfolding_all decide,
   (perdas_calculo_e_redistribuicao sysW5 assignW6 oracleW6 sysW5
     (fun _ => 0) (fun _ => 0) "B1" 0 0 (by decide) (by decide)).1,
   (perdas_calculo_e_redistribuicao sysW5 assignW6 oracleW6 sysW5
     (fun _ => 0) (fun _ => 0) "B2" 0 0 (by decide) (by decide)).2.2.2
     (by decide) (by with_unfolding_all decide),
   by with_unfolding_all decide⟩

/-- A system whose single line has zero susceptance. -/
def sysW10 : FullSystem where
  buses := [{ id := "B1", generators := [{ id := "GT1", bus := "B1", gmax := 10, cost := 5 }] },
            { id := "B2", generators := [] }]
  lines := [{ id := "L0", from_bus := "B1", to_bus := "B2", limit := 10,
              susceptance := 0, conductance := 1 }]
  load_profile := [[{ id := "C1", bus := "B2", demand := 2 }]]
  config := { transporte := true, perdas := true, considerar_perdas := true }

/-!  The N-1 contingency sweep. -/

lemma flatMap_congr_mem {α β : Type} {f g : α → List β} :
    ∀ {l : List α}, (∀ x ∈ l, f x = g x) → l.flatMap f = l.flatMap g := by
  intro l
  induction l with
  | nil => intro _; rfl
  | cons x xs ih =>
    intro h
    rw [List.flatMap_cons, List.flatMap_cons, h x (List.mem_cons_self x xs),
      ih (fun y hy => h y (List.mem_cons_of_mem x hy))]

lemma genList_removeGen (load : FullSystem) {g : Gen}
    (hg : (genIds load).Nodup) (hgmem : g ∈ genList load)
    (hconsist : ∀ bus ∈ load.buses, ∀ x ∈ bus.generators, x.bus = bus.id) :
    genList (removeGen load g)
      = (genList load).filter (fun x => x.id ≠ g.id) := by
  unfold genList removeGen
  rw [List.flatMap_map, List.filter_flatMap]
  refine flatMap_congr_mem ?_
  intro bus hbus
  by_cases hb : bus.id = g.bus
  · simp only [if_pos hb]
  · simp only [if_neg hb]
    symm
    rw [List.filter_eq_self]
    intro x hx
    simp only [ne_eq, decide_not, Bool.not_eq_false', decide_eq_true_eq,
      Bool.not_eq_true', decide_eq_false_iff_not]
    intro heq
    have hxmem : x ∈ genList load := List.mem_flatMap.2 ⟨bus, hbus, hx⟩
    have hxg : x = g :=
      List.inj_on_of_nodup_map (f := fun y : Gen => y.id) hg hxmem hgmem heq
    exact hb (by rw [← hconsist bus hbus x hx, hxg])

lemma filter_ne_length {l : List Line} (hl : (l.map (fun y => y.id)).Nodup)
    {x : Line} (hx : x ∈ l) :
    (l.filter (fun y => y.id ≠ x.id)).length = l.length - 1 := by
  induction l with
  | nil => cases hx
  | cons a rest ih =>
    rw [List.map_cons, List.nodup_cons] at hl
    rcases List.mem_cons.1 hx with rfl | hmem
    · rw [List.filter_cons_of_neg (by simp)]
      rw [List.filter_eq_self.2 ?_]
      · simp
      · intro y hy
        simp only [ne_eq, decide_not, Bool.not_eq_false', decide_eq_true_eq,
          Bool.not_eq_true', decide_eq_false_iff_not]
        intro h
        exact hl.1 (h ▸ List.mem_map.2 ⟨y, hy, rfl⟩)
    · have hpa : (fun y : Line => decide (y.id ≠ x.id)) a = true := by
        simp only [ne_eq, decide_not, Bool.not_eq_false', decide_eq_true_eq,
          Bool.not_eq_true', decide_eq_false_iff_not]
        intro h
        exact hl.1 (h ▸ List.mem_map.2 ⟨x, hmem, rfl⟩)
      have hpos : 0 < rest.length := List.length_pos_of_mem hmem
      rw [List.filter_cons_of_pos (p := fun y : Line => decide (y.id ≠ x.id)) hpa]
      simp only [List.length_cons, ih hl.2 hmem]
      omega

/-- C8.  The N-1 runner produces exactly `N + M` scenarios for a base system
with `N` non-fictitious generators and `M` lines — the generator scenarios
concatenated with the line scenarios — each tagged with the removed element's
id, all tags distinct; each generator scenario's system is the base system
with exactly that generator removed from its bus's generator list (lines and
loads untouched), and each line scenario's system is the base system with
exactly that line removed from the line list and the line-index dictionary
refreshed (buses untouched). -/
theorem n_menos_1_completo (load : FullSystem)
    (hg : (genIds load).Nodup) (hl : (lineIds load).Nodup)
    (hdisj : ∀ x ∈ genIds load, x ∉ lineIds load)
    (hconsist : ∀ bus ∈ load.buses, ∀ x ∈ bus.generators, x.bus = bus.id) :
    ((nMinus1Scenarios load).length
        = (geradoresBase load).length + load.lines.length) ∧
    ((nMinus1Scenarios load).map Prod.fst
        = (geradoresBase load).map (fun g => g.id) ++ lineIds load) ∧
    (((nMinus1Scenarios load).map Prod.fst).Nodup) ∧
    (∀ g ∈ geradoresBase load,
      (g.id, removeGen load g) ∈ nMinus1Scenarios load ∧
      genList (removeGen load g)
        = (genList load).filter (fun x => x.id ≠ g.id) ∧
      g ∉ genList (removeGen load g) ∧
      (removeGen load g).lines = load.lines ∧
      (removeGen load g).load_profile = load.load_profile) ∧
    (∀ linha ∈ load.lines,
      (linha.id, removeLine load linha.id) ∈ nMinus1Scenarios load ∧
      (removeLine load linha.id).lines
        = load.lines.filter (fun l => l.id ≠ linha.id) ∧
      linha ∉ (removeLine load linha.id).lines ∧
      (removeLine load linha.id).lines.length = load.lines.length - 1 ∧
      (removeLine load linha.id).buses = load.buses ∧
      (removeLine load linha.id).line_dict
        = (removeLine load linha.id).lines.map (fun l => (l.id, l))) := by
  refine ⟨?_, ?_, ?_, ?_, ?_⟩
  · unfold nMinus1Scenarios simularNMenos1
    simp
  · unfold nMinus1Scenarios simularNMenos1 lineIds
    simp [Function.comp_def]
  · have htags : (nMinus1Scenarios load).map Prod.fst
        = (geradoresBase load).map (fun g => g.id) ++ lineIds load := by
      unfold nMinus1Scenarios simularNMenos1 lineIds
      simp [Function.comp_def]
    rw [htags]
    have hgenpart : ((geradoresBase load).map (fun g => g.id)).Nodup := by
      refine List.Nodup.sublist ?_ hg
      exact List.Sublist.map (fun g : Gen => g.id) (List.filter_sublist _)
    refine List.Nodup.append hgenpart hl ?_
    rw [List.disjoint_left]
    intro x hx
    rcases List.mem_map.1 hx with ⟨g, hgm, rfl⟩
    exact hdisj g.id
      (List.mem_map.2 ⟨g, List.mem_of_mem_filter hgm, rfl⟩)
  · intro g hgm
    have hgmem : g ∈ genList load := List.mem_of_mem_filter hgm
    have hfil := genList_removeGen load hg hgmem hconsist
    refine ⟨?_, hfil, ?_, rfl, rfl⟩
    · unfold nMinus1Scenarios simularNMenos1
      exact List.mem_append.2 (Or.inl (List.mem_map.2 ⟨g, hgm, rfl⟩))
    · intro hmem
      rw [hfil] at hmem
      have := List.of_mem_filter hmem
      simp at this
  · intro linha hlm
    refine ⟨?_, rfl, ?_, ?_, rfl, rfl⟩
    · unfold nMinus1Scenarios simularNMenos1
      exact List.mem_append.2 (Or.inr (List.mem_map.2 ⟨linha, hlm, rfl⟩))
    · intro hmem
      have := List.of_mem_filter hmem
      simp at this
    · exact filter_ne_length hl hlm

/-- Second real generator of the N-1 witness system. -/
def genGT2W8 : Gen := { id := "GT2", bus := "B2", gmax := 8, cost := 7 }

/-- First line of the N-1 witness system. -/
def lineL0W8 : Line :=
  { id := "L0", from_bus := "B1", to_bus := "B2", limit := 5, susceptance := 1 }

/-- Base system of the N-1 witness: two real generators, one fictitious
generator, two lines. -/
def sysW8 : FullSystem where
  buses := [{ id := "B1", generators := [{ id := "GT1", bus := "B1", gmax := 10, cost := 5 }] },
            { id := "B2", generators := [genGT2W8,
              { id := "GF2", bus := "B2", gmax := 1000, cost := 1000000 }] }]
  lines := [lineL0W8,
            { id := "L1", from_bus := "B2", to_bus := "B1", limit := 4, susceptance := 1 }]
  load_profile := [[{ id := "C1", bus := "B2", demand := 2 }]]
  config := { transporte := true }

/-- Witness for C8: on `sysW8` (N = 2 real generators, M = 2 lines) the sweep
produces exactly `2 + 2` scenarios tagged `GT1, GT2, L0, L1`, all distinct;
removing `GT2` removes exactly that generator, and removing `L0` leaves one
line. -/
theorem n_menos_1_completo_witness :
    (nMinus1Scenarios sysW8).length = 2 + 2 ∧
    (nMinus1Scenarios sysW8).map Prod.fst = ["GT1", "GT2", "L0", "L1"] ∧
    ((nMinus1Scenarios sysW8).map Prod.fst).Nodup ∧
    genList (removeGen sysW8 genGT2W8)
      = (genList sysW8).filter (fun x => x.id ≠ "GT2") ∧
    genGT2W8 ∉ genList (removeGen sysW8 genGT2W8) ∧
    (removeLine sysW8 "L0").lines.length = sysW8.lines.length - 1 ∧
    (removeLine sysW8 "L0").lines.length = 1 := by
  have h := n_menos_1_completo sysW8 (by with_unfolding_all decide)
    (by with_unfolding_all decide) (by with_unfolding_all decide)
    (by with_unfolding_all decide)
  have hgm : genGT2W8 ∈ geradoresBase sysW8 := by with_unfolding_all decide
  have hlm : lineL0W8 ∈ sysW8.lines := by with_unfolding_all decide
  refine ⟨?_, ?_, h.2.2.1, (h.2.2.2.1 genGT2W8 hgm).2.1,
    (h.2.2.2.1 genGT2W8 hgm).2.2.1, (h.2.2.2.2 lineL0W8 hlm).2.2.2.1, ?_⟩
  · rw [h.1]
    with_unfolding_all decide
  · rw [h.2.1]
    with_unfolding_all decide
  · with_unfolding_all decide

/-- The zero-susceptance line of `sysW10`. -/
def lineW10 : Line :=
  { id := "L0", from_bus := "B1", to_bus := "B2", limit := 10,
    susceptance := 0, conductance := 1 }

/-- Witness for C10: on the zero-susceptance line of `sysW10`, with a nonzero
flow, the computed loss is exactly `0`. -/
theorem perda_linha_susceptancia_zero_witness :
    susceptanceParam sysW10 "L0" = 0 ∧
    perdaLinhaVal sysW10 assignW6 lineW10 0 = 0 :=
  ⟨by with_unfolding_all decide,
   perda_linha_susceptancia_zero sysW10 assignW6 lineW10 0 rfl
     (by with_unfolding_all decide)⟩

end PowerOpt
